import Mathlib

/-!
Verification development for the `processor-flow` repository.

This file shallowly embeds the Output Resolution & Citation Enrichment
pipeline of the repository (`src/flow/io_mapping.py` and
`src/flow/activity.py`) as executable Lean definitions, and proves the
claims of the specification against them.

Conventions of the embedding:
* Python dicts become association lists `List (String × Val)` over a
  JSON-like value type `Val`; `get` is first-match lookup, `d[k] = v`
  replaces the first binding in place or appends at the end, matching
  CPython's insertion-ordered dicts.
* Python exceptions become `Except String`; the carried string is the
  exception message built exactly as the source builds it (up to the
  iteration order of Python `set` literals, which CPython leaves
  unspecified because of hash randomisation; we fix the textual order of
  the source's set literal and only prove containment facts about such
  messages).
* Machine floats appear only in fields no claim observes
  (`answer_validity`, bbox geometry); they are carried as `Rat` and the
  Python `float(...)` coercion is modelled as accepting exactly numeric
  values.
* `uuid.uuid5(uuid.NAMESPACE_OID, s)` is implemented for real: UTF-8
  encoding, SHA-1, and RFC 4122 version/variant patching, so content ids
  evaluate to the very hex strings the Python code produces.
-/

namespace ProcessorFlow

/-! ## Bytes, SHA-1 and uuid5

`src/flow/activity.py` derives content ids with
`str(uuid.uuid5(uuid.NAMESPACE_OID, f"{document_id}:{chunk_id}"))`.
We implement `uuid5` concretely: SHA-1 over the namespace bytes followed
by the UTF-8 encoding of the name, with the version and variant bits
patched in, rendered as the canonical lowercase hyphenated hex form. -/

/-- UTF-8 encoding of a single character, as byte values (models Python
`str.encode("utf-8")` character by character). -/
def charUtf8 (c : Char) : List Nat :=
  let n := c.toNat
  if n < 0x80 then [n]
  else if n < 0x800 then
    [0xC0 ||| (n >>> 6), 0x80 ||| (n &&& 0x3F)]
  else if n < 0x10000 then
    [0xE0 ||| (n >>> 12), 0x80 ||| ((n >>> 6) &&& 0x3F), 0x80 ||| (n &&& 0x3F)]
  else
    [0xF0 ||| (n >>> 18), 0x80 ||| ((n >>> 12) &&& 0x3F),
     0x80 ||| ((n >>> 6) &&& 0x3F), 0x80 ||| (n &&& 0x3F)]

/-- UTF-8 encoding of a string as a byte list. -/
def utf8Bytes (s : String) : List Nat :=
  s.data.flatMap charUtf8

/-- 32-bit left rotation on `Nat` (values are kept below `2 ^ 32`). -/
def rotl32 (n x : Nat) : Nat :=
  ((x <<< n) ||| (x >>> (32 - n))) % 4294967296

/-- SHA-1 round constant for round `t`. -/
def sha1K (t : Nat) : Nat :=
  if t < 20 then 0x5A827999
  else if t < 40 then 0x6ED9EBA1
  else if t < 60 then 0x8F1BBCDC
  else 0xCA62C1D6

/-- SHA-1 round function for round `t`. -/
def sha1F (t b c d : Nat) : Nat :=
  if t < 20 then (b &&& c) ||| ((b ^^^ 0xFFFFFFFF) &&& d)
  else if t < 40 then b ^^^ c ^^^ d
  else if t < 60 then (b &&& c) ||| (b &&& d) ||| (c &&& d)
  else b ^^^ c ^^^ d

/-- Extend the (reversed) message schedule by `n` further words:
the head of `l` is the most recent word, so `W[t-3]` is `l.getD 2 0`. -/
def sha1ExtendW (l : List Nat) : Nat → List Nat
  | 0 => l
  | n + 1 =>
    let x := rotl32 1 ((l.getD 2 0) ^^^ (l.getD 7 0) ^^^ (l.getD 13 0) ^^^ (l.getD 15 0))
    sha1ExtendW (x :: l) n

/-- The 80-word message schedule of a 16-word block. -/
def sha1Schedule (block : List Nat) : List Nat :=
  (sha1ExtendW block.reverse 64).reverse

/-- One SHA-1 round, acting on the five-word working state. -/
def sha1Round (st : Nat × Nat × Nat × Nat × Nat) (tw : Nat × Nat) :
    Nat × Nat × Nat × Nat × Nat :=
  let (a, b, c, d, e) := st
  let (t, wt) := tw
  let tmp := (rotl32 5 a + sha1F t b c d + e + sha1K t + wt) % 4294967296
  (tmp, a, rotl32 30 b, c, d)

/-- Compress one 16-word block into the running hash state. -/
def sha1Compress (h : Nat × Nat × Nat × Nat × Nat) (block : List Nat) :
    Nat × Nat × Nat × Nat × Nat :=
  let (h0, h1, h2, h3, h4) := h
  let w := sha1Schedule block
  let rounds := (List.range 80).zip w
  let (a, b, c, d, e) := rounds.foldl sha1Round (h0, h1, h2, h3, h4)
  ((h0 + a) % 4294967296, (h1 + b) % 4294967296, (h2 + c) % 4294967296,
   (h3 + d) % 4294967296, (h4 + e) % 4294967296)

/-- SHA-1 padding: append `0x80`, zero bytes to 56 mod 64, then the
64-bit big-endian bit length. -/
def sha1Pad (msg : List Nat) : List Nat :=
  let len := msg.length
  let zeros := (120 - ((len + 1) % 64)) % 64
  let bitLen := len * 8
  msg ++ [0x80] ++ List.replicate zeros 0 ++
    (List.range 8).map (fun i => (bitLen >>> (8 * (7 - i))) % 256)

/-- Split a byte list into chunks of `n` bytes (`fuel` bounds recursion;
callers pass the list length). -/
def chunksOf (n : Nat) (l : List Nat) (fuel : Nat) : List (List Nat) :=
  match fuel with
  | 0 => if l.isEmpty then [] else [l.take n]
  | f + 1 =>
    match l with
    | [] => []
    | _ => l.take n :: chunksOf n (l.drop n) f

/-- Pack bytes into 32-bit big-endian words. -/
def bytesToWords : List Nat → List Nat
  | b0 :: b1 :: b2 :: b3 :: rest =>
    (((b0 * 256 + b1) * 256 + b2) * 256 + b3) :: bytesToWords rest
  | _ => []

/-- Unpack a 32-bit word into four big-endian bytes. -/
def wordToBytes (w : Nat) : List Nat :=
  [(w >>> 24) % 256, (w >>> 16) % 256, (w >>> 8) % 256, w % 256]

/-- SHA-1 of a byte list, as the 20-byte digest. -/
def sha1 (msg : List Nat) : List Nat :=
  let padded := sha1Pad msg
  let blocks := (chunksOf 64 padded padded.length).map bytesToWords
  let (h0, h1, h2, h3, h4) :=
    blocks.foldl sha1Compress
      (0x67452301, 0xEFCDAB89, 0x98BADCFE, 0x10325476, 0xC3D2E1F0)
  wordToBytes h0 ++ wordToBytes h1 ++ wordToBytes h2 ++ wordToBytes h3 ++ wordToBytes h4

/-- One lowercase hex digit. -/
def hexDigit (n : Nat) : String :=
  String.singleton (Char.ofNat (if n < 10 then 48 + n else 87 + n))

/-- Two lowercase hex digits of a byte. -/
def hexByte (n : Nat) : String :=
  hexDigit (n / 16) ++ hexDigit (n % 16)

/-- Hex string of a byte list. -/
def hexOfBytes (bs : List Nat) : String :=
  String.join (bs.map hexByte)

/-- The 16 bytes of `uuid.NAMESPACE_OID`
(`6ba7b812-9dad-11d1-80b4-00c04fd430c8`). -/
def namespaceOidBytes : List Nat :=
  [0x6b, 0xa7, 0xb8, 0x12, 0x9d, 0xad, 0x11, 0xd1,
   0x80, 0xb4, 0x00, 0xc0, 0x4f, 0xd4, 0x30, 0xc8]

/-- `str(uuid.uuid5(uuid.NAMESPACE_OID, name))`: SHA-1 of namespace bytes
plus the UTF-8 name, truncated to 16 bytes, version nibble set to 5 and
variant bits to 10, in canonical 8-4-4-4-12 hyphenated lowercase hex. -/
def uuid5Oid (name : String) : String :=
  let digest := (sha1 (namespaceOidBytes ++ utf8Bytes name)).take 16
  let b6 := ((digest.getD 6 0) &&& 0x0F) ||| 0x50
  let b8 := ((digest.getD 8 0) &&& 0x3F) ||| 0x80
  let bytes := digest.take 6 ++ [b6, digest.getD 7 0, b8] ++ digest.drop 9
  hexOfBytes (bytes.take 4) ++ "-" ++ hexOfBytes ((bytes.drop 4).take 2) ++ "-" ++
    hexOfBytes ((bytes.drop 6).take 2) ++ "-" ++ hexOfBytes ((bytes.drop 8).take 2) ++
    "-" ++ hexOfBytes (bytes.drop 10)

/-- `_content_id(document_id, chunk_id)` from `src/flow/activity.py`:
`str(uuid.uuid5(uuid.NAMESPACE_OID, f"{document_id}:{chunk_id}"))`. -/
def content_id (document_id chunk_id : String) : String :=
  uuid5Oid (document_id ++ ":" ++ chunk_id)

/-! ## A JSON-like value model for Python data

Flow outputs are Python dicts of strings, numbers, lists and nested
dicts. We model them with `Val`; dicts are insertion-ordered association
lists with unique keys, as in CPython. -/

inductive Val where
  | none
  | bool (b : Bool)
  | num (q : Rat)
  | str (s : String)
  | list (xs : List Val)
  | dict (kvs : List (String × Val))

/-- A Python dict: insertion-ordered string-keyed association list. -/
abbrev Dict := List (String × Val)

/-- `d.get(k)` as an option (first binding wins; keys are unique in
well-formed dicts). -/
def dgetOpt (d : Dict) (k : String) : Option Val :=
  match d.find? (fun kv => kv.1 == k) with
  | some kv => some kv.2
  | Option.none => Option.none

/-- `d.get(k, default)`. -/
def dget (d : Dict) (k : String) (dflt : Val) : Val :=
  (dgetOpt d k).getD dflt

/-- `k in d` for a dict. -/
def dhas (d : Dict) (k : String) : Bool :=
  (dgetOpt d k).isSome

/-- `list(d.keys())` in insertion order. -/
def dkeys (d : Dict) : List String :=
  d.map Prod.fst

/-- `d[k] = v`: replace the first binding of `k` in place, or append a
new binding at the end (CPython dict assignment preserves key order). -/
def dset (d : Dict) (k : String) (v : Val) : Dict :=
  match d with
  | [] => [(k, v)]
  | (k0, v0) :: rest => if k0 == k then (k, v) :: rest else (k0, v0) :: dset rest k v

/-- Python truthiness of a `Val` (`bool(v)`). -/
def truthy : Val → Bool
  | .none => false
  | .bool b => b
  | .num q => q != 0
  | .str s => !s.isEmpty
  | .list xs => !xs.isEmpty
  | .dict kvs => !kvs.isEmpty

/-- A single-quote character as a string (used to spell Python reprs and
the `UUID('...')` entity-descriptor markers). -/
def squote : String :=
  String.singleton (Char.ofNat 39)

/-- `sep.join(xs)` (Python string join). -/
def joinSep (sep : String) : List String → String
  | [] => ""
  | [x] => x
  | x :: y :: rest => x ++ sep ++ joinSep sep (y :: rest)

/-- Python `repr` of a list of plain strings: `[` then comma-separated
single-quoted entries then `]`. -/
def pyReprStrList (xs : List String) : String :=
  "[" ++ joinSep ", " (xs.map (fun s => squote ++ s ++ squote)) ++ "]"

/-- Python `repr` of a set of plain strings, rendered in the order
given (CPython set iteration order is unspecified under hash
randomisation; theorems about such messages only assert containment). -/
def pyReprStrSet (xs : List String) : String :=
  "\x7b" ++ joinSep ", " (xs.map (fun s => squote ++ s ++ squote)) ++ "\x7d"

/-- `leadsList n h`: `n` is an initial segment of `h`. -/
def leadsList : List Char → List Char → Bool
  | [], _ => true
  | _ :: _, [] => false
  | a :: as, b :: bs => a == b && leadsList as bs

/-- `subList n h`: `n` occurs contiguously somewhere in `h`. -/
def subList (n : List Char) : List Char → Bool
  | [] => n.isEmpty
  | b :: bs => leadsList n (b :: bs) || subList n bs

/-- `needle in hay` on Python strings (contiguous substring). -/
def strHasSub (hay needle : String) : Bool :=
  subList needle.data hay.data

/-- `s.split(sep, 1)` when `sep` occurs: the part before the first
occurrence and the part after it. -/
def splitOnceList (sep : List Char) : List Char → Option (List Char × List Char)
  | [] => if sep.isEmpty then some ([], []) else Option.none
  | c :: cs =>
    if leadsList sep (c :: cs) then some ([], (c :: cs).drop sep.length)
    else
      match splitOnceList sep cs with
      | some (l, r) => some (c :: l, r)
      | Option.none => Option.none

/-- String version of `splitOnceList`. -/
def splitOnce (s sep : String) : Option (String × String) :=
  match splitOnceList sep.data s.data with
  | some (l, r) => some (l.asString, r.asString)
  | Option.none => Option.none

/-- Number of occurrences of a character in a string (`s.count(c)` for a
single-character needle). -/
def countChar (s : String) (c : Char) : Nat :=
  s.data.count c

/-! ## Document-id variants (`_doc_id_variants` in `src/flow/activity.py`) -/

/-- The marker `UUID('` that introduces an embedded uuid in an entity
descriptor string. -/
def uuidMark : String :=
  "UUID(" ++ squote

/-- The closing marker `')` of an embedded uuid. -/
def uuidCloseMark : String :=
  squote ++ ")"

/-- The entity-descriptor encoding of a bare uuid:
`id=UUID('<uuid>') entity_type='FILE'`. -/
def entityStringOf (u : String) : String :=
  "id=UUID(" ++ squote ++ u ++ squote ++ ") entity_type=" ++ squote ++ "FILE" ++ squote

/-- `raw_id.split("UUID('", 1)[1].split("')", 1)[0]`: the text between
the first `UUID('` and the following `')` (or everything after `UUID('`
when no closing marker follows). Callers guard on `uuidMark` occurring. -/
def extractEmbeddedUuid (raw : String) : String :=
  match splitOnce raw uuidMark with
  | some (_, rest) =>
    match splitOnce rest uuidCloseMark with
    | some (l, _) => l
    | Option.none => rest
  | Option.none => ""

/-- `len(raw_id) == 36 and raw_id.count("-") == 4`: the source's test
for a bare-uuid-shaped document id. -/
def looksLikeBareUuid (raw_id : String) : Bool :=
  raw_id.length == 36 && countChar raw_id (Char.ofNat 45) == 4

/-- `_doc_id_variants(raw_id)` from `src/flow/activity.py`: the raw id
itself (when non-empty); plus the uuid embedded in an entity descriptor
when `UUID('` occurs; plus the entity-descriptor form when the raw id is
shaped like a bare uuid — each appended only when new and non-empty. -/
def doc_id_variants (raw_id : String) : List String :=
  let v0 : List String := if raw_id != "" then [raw_id] else []
  let v1 : List String :=
    if strHasSub raw_id uuidMark then
      let extracted := extractEmbeddedUuid raw_id
      if extracted != "" && !(v0.contains extracted) then v0 ++ [extracted] else v0
    else v0
  if looksLikeBareUuid raw_id then
    let entity := entityStringOf raw_id
    if !(v1.contains entity) then v1 ++ [entity] else v1
  else v1

/-! ## Protobuf-shaped records (`clark_protos` messages used by the code)

Proto string fields default to `""`, repeated fields to `[]`. Float
fields are carried as `Rat`. -/

/-- `questionAnswering_pb2.Question` (the fields the code reads). -/
structure Question where
  id : String := ""
  question : String := ""
  expectedAnswer : String := ""
  guidelines : String := ""
  inputQuestionIds : List String := []
deriving Repr, DecidableEq

/-- `position_pb2.Bbox`. -/
structure Bbox where
  x0 : Rat := 0
  y0 : Rat := 0
  x1 : Rat := 0
  y1 : Rat := 0
deriving Repr, DecidableEq

/-- `position_pb2.PositionBbox`. -/
structure PositionBbox where
  bbox : Bbox
  page_number : Int := 0
deriving Repr, DecidableEq

/-- `position_pb2.Position` (only the `bboxPosition` arm is built). -/
structure Position where
  bboxPosition : PositionBbox
deriving Repr, DecidableEq

/-- `annotation_pb2.DocumentStatement`. -/
structure DocumentStatement where
  documentId : String := ""
  documentName : String := ""
  content : String := ""
  positions : List Position := []
deriving Repr, DecidableEq

/-- `annotation_pb2.Annotation`; `atype` is always the
`DOCUMENT_STATEMENT` enum value in the code. -/
structure Annotation where
  id : String := ""
  atype : String := "DOCUMENT_STATEMENT"
  documentStatement : DocumentStatement
deriving Repr, DecidableEq

/-- `questionAnswering_pb2.QuestionAnswer` (the fields the code sets). -/
structure QuestionAnswer where
  id : String := ""
  question : String := ""
  expectedAnswer : String := ""
  sourcedContent : String := ""
  explanation : String := ""
  answerValidity : Rat := 0
  validityExplanation : String := ""
  annotations : List Annotation := []
  inputQuestionIds : List String := []
deriving Repr, DecidableEq

/-! ## Coercion helpers for Python/proto dynamic typing -/

/-- Require a string (models both `isinstance(v, str)` guards and the
`TypeError` a proto string-field assignment raises otherwise). -/
def asStr (v : Val) (ctx : String) : Except String String :=
  match v with
  | .str s => .ok s
  | _ => .error ctx

/-- Numeric coercion (`float(v)` / proto float-field assignment): Python
numbers pass through, bools are ints; anything else errors. (Python's
`float` also parses numeric strings; no code path under test feeds it
one.) -/
def asRatNum (v : Val) (ctx : String) : Except String Rat :=
  match v with
  | .num q => .ok q
  | .bool b => .ok (if b then 1 else 0)
  | _ => .error ctx

/-- Truncation toward zero, as Python `int()` on a number. -/
def ratTrunc (q : Rat) : Int :=
  if q ≥ 0 then q.floor else q.ceil

/-- `int(v)` for the values the code can meet (numbers and bools). -/
def asPyInt (v : Val) (ctx : String) : Except String Int :=
  match v with
  | .num q => .ok (ratTrunc q)
  | .bool b => .ok (if b then 1 else 0)
  | _ => .error ctx

/-- Effectful map over a list in `Except` (structural-recursion variant
of `List.mapM`, used throughout for easy induction). -/
def mapME (f : α → Except String β) : List α → Except String (List β)
  | [] => .ok []
  | x :: xs => do
    let y ← f x
    let ys ← mapME f xs
    pure (y :: ys)

/-- `list(v or [])` whose elements are then used as strings (joined or
assigned to repeated proto string fields): falsy values become `[]`, a
list must contain only strings, anything else errors. -/
def pyStrListOrEmpty (v : Val) (ctx : String) : Except String (List String) :=
  let v' := if truthy v then v else Val.list []
  match v' with
  | .list xs =>
    mapME (fun x =>
      match x with
      | .str s => Except.ok s
      | _ => Except.error ctx) xs
  | _ => .error ctx

/-! ## `get_question_index` and the handlers of
`src/flow/io_mapping.py` (`OutputMapper`) -/

/-- `get_question_index(question, questions)`: index of the first
question whose text equals `question`, else `-1`. -/
def get_question_index (question : String) (questions : List Question) : Int :=
  match questions.findIdx? (fun q => q.question == question) with
  | some i => (i : Int)
  | Option.none => -1

/-- Insert `x` before the first element it compares `le` to (helper of
`stableSortBy`). -/
def insertSortedBy (le : α → α → Bool) (x : α) : List α → List α
  | [] => [x]
  | y :: ys => if le x y then x :: y :: ys else y :: insertSortedBy le x ys

/-- Stable ascending sort (models CPython's stable `list.sort`): equal
elements keep their original relative order. -/
def stableSortBy (le : α → α → Bool) : List α → List α
  | [] => []
  | x :: xs => insertSortedBy le x (stableSortBy le xs)

/-- The required-field set of the single-question shape, in the source's
set-literal order. -/
def singleRequiredFields : List String :=
  ["answer", "justifying_contents_ids", "answer_explanation"]

/-- The required-field set of a multi-question answer element, in the
source's set-literal order. -/
def multiRequiredFields : List String :=
  ["id", "question", "answer", "justifying_contents_ids", "answer_explanation"]

/-- Error message for a missing or falsy or non-dict `final_result`. -/
def singleMissingFinalMsg : String :=
  "Missing or invalid " ++ squote ++ "final_result" ++ squote ++ " in flow outputs"

/-- Error message for claimed citations without resolved annotation ids
(single-question shape). -/
def singleCitationMsg : String :=
  "final_result.justifying_contents_ids is non-empty but citation_annotation_ids is missing. Annotation enrichment is required for QuestionAnswering-compatible output."

/-- Error message for claimed citations without resolved annotation ids
(multi-question shape, per element). -/
def multiCitationMsg (idx : Nat) : String :=
  "Answer " ++ toString idx ++ ": justifying_contents_ids is non-empty but citation_annotation_ids is missing. Annotation enrichment is required for QuestionAnswering-compatible output."

/-- Error message for missing required fields in a multi-question
answer element. -/
def multiMissingFieldsMsg (idx : Nat) (missing : List String) : String :=
  "Answer at index " ++ toString idx ++ " missing required fields: " ++ pyReprStrSet missing

/-- Error message for a mistyped field of a multi-question element. -/
def fieldTypeMsg (idx : Nat) (fld kind : String) : String :=
  "Answer " ++ toString idx ++ ": " ++ squote ++ fld ++ squote ++ " must be a " ++ kind

/-- Error message of `to_question_answers` when neither shape matches. -/
def unrecognizedMsg (keys : List String) : String :=
  "Flow output does not match required format. Expected either " ++ squote ++
    "final_result" ++ squote ++ " (single-question) or " ++ squote ++ "answers" ++
    squote ++ " (multi-question). Got keys: " ++ pyReprStrList keys

/-- Positions of one annotation dict (`OutputMapper._build_annotations`,
inner loop): only entries with a truthy `bbox` produce a `Position`. -/
def buildPositions (doc_stmt_raw : Dict) : Except String (List Position) := do
  let posv := dget doc_stmt_raw "positions" (.list [])
  match posv with
  | .list poss =>
    poss.foldlM (fun acc pos_raw => do
      match pos_raw with
      | .dict pd => do
        let bboxPosV := dget pd "bboxPosition" (.dict [])
        let bbox_pos_raw ← match bboxPosV with
          | .dict b => Except.ok b
          | _ => Except.error "AttributeError: bboxPosition is not a dict"
        let bboxV := dget bbox_pos_raw "bbox" (.dict [])
        if truthy bboxV then do
          let bbox_raw ← match bboxV with
            | .dict b => Except.ok b
            | _ => Except.error "AttributeError: bbox is not a dict"
          let x0 ← asRatNum (dget bbox_raw "x0" (.num 0)) "TypeError: float() argument"
          let y0 ← asRatNum (dget bbox_raw "y0" (.num 0)) "TypeError: float() argument"
          let x1 ← asRatNum (dget bbox_raw "x1" (.num 0)) "TypeError: float() argument"
          let y1 ← asRatNum (dget bbox_raw "y1" (.num 0)) "TypeError: float() argument"
          let pg ← asPyInt (dget bbox_pos_raw "pageNumber" (.num 0)) "TypeError: int() argument"
          pure (acc ++ [Position.mk (PositionBbox.mk (Bbox.mk x0 y0 x1 y1) pg)])
        else pure acc
      | _ => Except.error "AttributeError: position entry is not a dict") []
  | _ => .error "TypeError: positions is not iterable"

/-- `OutputMapper._build_annotations(raw_annotations)`: non-dict entries
and entries without a truthy `documentStatement` are skipped; the rest
become `Annotation` records. -/
def build_annotations (v : Val) : Except String (List Annotation) := do
  let raws ← match v with
    | .list xs => Except.ok xs
    | _ => Except.error "TypeError: annotations is not iterable"
  raws.foldlM (fun acc raw => do
    match raw with
    | .dict rd => do
      let annIdV := dget rd "id" (.str "")
      let docStmtV := dget rd "documentStatement" (.dict [])
      if !(truthy docStmtV) then
        pure acc
      else do
        let doc_stmt_raw ← match docStmtV with
          | .dict d => Except.ok d
          | _ => Except.error "AttributeError: documentStatement is not a dict"
        let positions ← buildPositions doc_stmt_raw
        let documentId ← asStr (dget doc_stmt_raw "documentId" (.str ""))
          "TypeError: documentId must be a string"
        let documentName ← asStr (dget doc_stmt_raw "documentName" (.str ""))
          "TypeError: documentName must be a string"
        let content ← asStr (dget doc_stmt_raw "content" (.str ""))
          "TypeError: content must be a string"
        let ann_id ← asStr annIdV "TypeError: annotation id must be a string"
        pure (acc ++ [{ id := ann_id,
                        documentStatement :=
                          { documentId := documentId, documentName := documentName,
                            content := content, positions := positions } : Annotation }])
    | _ => pure acc) []

/-- `OutputMapper._handle_single_question(flow_outputs,
original_questions)`. -/
def handle_single_question (flow_outputs : Dict) (original_questions : List Question) :
    Except String (List QuestionAnswer) := do
  let frv := dget flow_outputs "final_result" .none
  let fr ← match frv with
    | .dict kvs =>
      if truthy (.dict kvs) then Except.ok kvs else Except.error singleMissingFinalMsg
    | _ => Except.error singleMissingFinalMsg
  let missing := singleRequiredFields.filter (fun f => !(dhas fr f))
  if !missing.isEmpty then
    throw ("Missing required fields in final_result: " ++ pyReprStrSet missing)
  let answer_text ← asStr (dget fr "answer" .none) "final_result.answer must be a string"
  let jci ← match dget fr "justifying_contents_ids" .none with
    | .list xs => Except.ok xs
    | _ => Except.error "final_result.justifying_contents_ids must be a list"
  let explanation ← asStr (dget fr "answer_explanation" .none)
    "final_result.answer_explanation must be a string"
  let q ← match original_questions with
    | [] => Except.error "No original questions provided for single-question output"
    | q :: _ => Except.ok q
  let citation_ids ← pyStrListOrEmpty (dget fr "citation_annotation_ids" (.list []))
    "TypeError: citation ids must be strings"
  if !jci.isEmpty && citation_ids.isEmpty then
    throw singleCitationMsg
  let sourced_content :=
    if !citation_ids.isEmpty then
      "[" ++ answer_text ++ "](cite:" ++ joinSep "," citation_ids ++ ")"
    else answer_text
  let annotations ← build_annotations (dget fr "annotations" (.list []))
  let answerValidity ← asRatNum (dget fr "answer_validity" (.num 1))
    "TypeError: answer_validity must be a number"
  let validityExplanation ← asStr (dget fr "validity_explanation" (.str ""))
    "TypeError: validity_explanation must be a string"
  pure [{ id := q.id, question := q.question, expectedAnswer := q.expectedAnswer,
          sourcedContent := sourced_content, explanation := explanation,
          answerValidity := answerValidity, validityExplanation := validityExplanation,
          annotations := annotations, inputQuestionIds := q.inputQuestionIds }]

/-- `{q.id: q for q in original_questions}[i]` — on duplicate ids the
last binding wins, as in a Python dict comprehension. -/
def questions_by_id_get (original_questions : List Question) (i : String) : Option Question :=
  original_questions.reverse.find? (fun q => q.id == i)

/-- One element of the multi-question `answers` list, at position
`idx` (the body of the loop in `OutputMapper._handle_multi_question`). -/
def process_multi_answer (original_questions : List Question) (idx : Nat) (raw_v : Val) :
    Except String QuestionAnswer := do
  let raw ← match raw_v with
    | .dict kvs => Except.ok kvs
    | _ => Except.error ("Answer at index " ++ toString idx ++ " must be a dict")
  let missing := multiRequiredFields.filter (fun f => !(dhas raw f))
  if !missing.isEmpty then
    throw (multiMissingFieldsMsg idx missing)
  let aid ← asStr (dget raw "id" .none) (fieldTypeMsg idx "id" "string")
  let question ← asStr (dget raw "question" .none) (fieldTypeMsg idx "question" "string")
  let answer_text ← asStr (dget raw "answer" .none) (fieldTypeMsg idx "answer" "string")
  let jci ← match dget raw "justifying_contents_ids" .none with
    | .list xs => Except.ok xs
    | _ => Except.error (fieldTypeMsg idx "justifying_contents_ids" "list")
  let explanation ← asStr (dget raw "answer_explanation" .none)
    (fieldTypeMsg idx "answer_explanation" "string")
  let citation_ids ← pyStrListOrEmpty (dget raw "citation_annotation_ids" (.list []))
    "TypeError: citation ids must be strings"
  if !jci.isEmpty && citation_ids.isEmpty then
    throw (multiCitationMsg idx)
  let sourced_content :=
    if !citation_ids.isEmpty then
      "[" ++ answer_text ++ "](cite:" ++ joinSep "," citation_ids ++ ")"
    else answer_text
  let original_q := questions_by_id_get original_questions aid
  let expected0 := dget raw "expected_answer" (.str "")
  let expectedV :=
    if !(truthy expected0) then
      match original_q with
      | some q => Val.str q.expectedAnswer
      | Option.none => expected0
    else expected0
  let expectedAnswer ← asStr expectedV "TypeError: expectedAnswer must be a string"
  let annotations ← build_annotations (dget raw "annotations" (.list []))
  let answerValidity ← asRatNum (dget raw "answer_validity" (.num 1))
    "TypeError: float() argument"
  let validityExplanation ← asStr (dget raw "validity_explanation" (.str ""))
    "TypeError: validity_explanation must be a string"
  let input_qids ← pyStrListOrEmpty (dget raw "input_question_ids" .none)
    "TypeError: input_question_ids entries must be strings"
  pure { id := aid, question := question, expectedAnswer := expectedAnswer,
         sourcedContent := sourced_content, explanation := explanation,
         answerValidity := answerValidity, validityExplanation := validityExplanation,
         annotations := annotations, inputQuestionIds := input_qids }

/-- The `for idx, raw in enumerate(raw_answers)` loop: fail-fast on the
first invalid element. -/
def process_multi_answers (original_questions : List Question) (idx : Nat) :
    List Val → Except String (List QuestionAnswer)
  | [] => pure []
  | raw :: rest => do
    let qa ← process_multi_answer original_questions idx raw
    let qas ← process_multi_answers original_questions (idx + 1) rest
    pure (qa :: qas)

/-- The sort key comparison of `_handle_multi_question`:
`key=lambda a: get_question_index(a.question, original_questions)`. -/
def multiSortLe (original_questions : List Question) (a b : QuestionAnswer) : Bool :=
  get_question_index a.question original_questions ≤
    get_question_index b.question original_questions

/-- `OutputMapper._handle_multi_question(flow_outputs,
original_questions)`. -/
def handle_multi_question (flow_outputs : Dict) (original_questions : List Question) :
    Except String (List QuestionAnswer) := do
  let raw_answers ← match dget flow_outputs "answers" .none with
    | .list xs => Except.ok xs
    | _ => Except.error (squote ++ "answers" ++ squote ++ " must be a list")
  let answers ← process_multi_answers original_questions 0 raw_answers
  pure (stableSortBy (multiSortLe original_questions) answers)

/-- `OutputMapper.to_question_answers(flow_outputs,
original_questions)`: shape dispatch on the top-level keys. -/
def to_question_answers (flow_outputs : Dict) (original_questions : List Question) :
    Except String (List QuestionAnswer) :=
  if dhas flow_outputs "final_result" then
    handle_single_question flow_outputs original_questions
  else if dhas flow_outputs "answers" then
    handle_multi_question flow_outputs original_questions
  else
    .error (unrecognizedMsg (dkeys flow_outputs))

/-! ## Citation enrichment (`_enrich_with_annotations` in
`src/flow/activity.py`)

The external chunk/search service (`client.get_document_chunks`) is an
injected function `fetch : String → List Chunk`; the embedding returns,
alongside the result, the trace of checksums fetched, so "no external
call" is the trace being empty. -/

/-- A source file as the activity reads it (`getattr(f, "id", "") or ""`
etc. — proto string fields, so already defaulted to `""`). -/
structure SourceFile where
  id : String := ""
  checksum : String := ""
  name : String := ""
deriving Repr, DecidableEq

/-- One positional metadata entry of a chunk
(`chunk.meta_data.positions` values): the code keeps `PositionBbox`
instances and silently ignores every other kind. -/
inductive ChunkPos where
  | pbbox (bbox : Bbox) (page_number : Int)
  | otherKind
deriving Repr, DecidableEq

/-- A chunk as returned by the search service. -/
structure Chunk where
  id : String := ""
  content : String := ""
  positions : List ChunkPos := []
deriving Repr, DecidableEq

/-- `_positions_list(chunk)`: bbox-style positions as raw dicts, other
position kinds omitted. -/
def positions_list (c : Chunk) : List Val :=
  c.positions.filterMap (fun p =>
    match p with
    | .pbbox b pg =>
      some (Val.dict [("bboxPosition", .dict
        [("bbox", .dict [("x0", .num b.x0), ("y0", .num b.y0),
                         ("x1", .num b.x1), ("y1", .num b.y1)]),
         ("pageNumber", .num (pg : Int))])])
    | .otherKind => Option.none)

/-- Collect the content ids referenced by the flow outputs (lines 55-61
of `activity.py`): from `final_result.justifying_contents_ids` when a
`final_result` key exists, else concatenated over the elements of
`answers` when that key exists, else none. -/
def collect_content_ids (flow_outputs : Dict) : Except String (List String) :=
  if dhas flow_outputs "final_result" then
    match dget flow_outputs "final_result" (.dict []) with
    | .dict fr =>
      pyStrListOrEmpty (dget fr "justifying_contents_ids" (.list []))
        "TypeError: justifying_contents_ids must be a list of strings"
    | _ => .error "AttributeError: final_result is not a dict"
  else if dhas flow_outputs "answers" then
    match (let av := dget flow_outputs "answers" (.list []);
           if truthy av then av else .list []) with
    | .list xs => do
      let idss ← mapME (fun a =>
        match a with
        | .dict ad =>
          pyStrListOrEmpty (dget ad "justifying_contents_ids" (.list []))
            "TypeError: justifying_contents_ids must be a list of strings"
        | _ => .error "AttributeError: answer is not a dict") xs
      pure idss.flatten
    | _ => .error "TypeError: answers is not iterable"
  else
    .ok []

/-- Order-preserving deduplication keeping the first occurrence (the
`seen`-set comprehension of line 69). -/
def dedupKeepFirst (seen : List String) : List String → List String
  | [] => []
  | x :: xs =>
    if seen.contains x then dedupKeepFirst seen xs
    else x :: dedupKeepFirst (x :: seen) xs

/-- State of the document/chunk scan: resolved ids with their owning
chunk and file (`chunk_by_content_id`), and the ids still `remaining`. -/
structure ScanState where
  found : List (String × Chunk × String × String)
  remaining : List String
deriving Repr, DecidableEq

/-- Innermost loop (`for doc_id in doc_id_candidates`): try each
document-id variant against one chunk, stopping once nothing remains. -/
def scanVariants (ch : Chunk) (fileId fileName : String) :
    List String → ScanState → ScanState
  | [], st => st
  | v :: vs, st =>
    let cid := content_id v ch.id
    if st.remaining.contains cid then
      let st' : ScanState :=
        ⟨st.found ++ [(cid, ch, fileId, fileName)], st.remaining.erase cid⟩
      if st'.remaining.isEmpty then st' else scanVariants ch fileId fileName vs st'
    else scanVariants ch fileId fileName vs st

/-- Middle loop (`for ch in doc_chunks`): chunks with falsy ids are
skipped; stop once nothing remains. -/
def scanChunks (variants : List String) (fileId fileName : String) :
    List Chunk → ScanState → ScanState
  | [], st => st
  | ch :: chs, st =>
    if ch.id != "" then
      let st' := scanVariants ch fileId fileName variants st
      if st'.remaining.isEmpty then st' else scanChunks variants fileId fileName chs st'
    else scanChunks variants fileId fileName chs st

/-- Outer loop (`for f in source_files`): files lacking an id or a
checksum are skipped without fetching; otherwise one fetch per file,
recorded in the returned trace; stop once nothing remains. -/
def scanFiles (fetch : String → List Chunk) :
    List SourceFile → ScanState → ScanState × List String
  | [], st => (st, [])
  | f :: fs, st =>
    if f.id == "" || f.checksum == "" then scanFiles fetch fs st
    else
      let variants := doc_id_variants f.id
      let chunks := fetch f.checksum
      let st' := scanChunks variants f.id f.name chunks st
      if st'.remaining.isEmpty then (st', [f.checksum])
      else
        let rest := scanFiles fetch fs st'
        (rest.1, f.checksum :: rest.2)

/-- Lexicographic string order as a Bool (CPython `sorted` on `str`). -/
def strLeB (a b : String) : Bool :=
  a < b || a == b

/-- `sorted(remaining)`. -/
def sortStrings (l : List String) : List String :=
  stableSortBy strLeB l

/-- The hard-failure message of lines 137-140: the unresolved count out
of the distinct total, and at most ten sample ids. -/
def unresolvedMsg (missing : List String) (total : Nat) : String :=
  "Could not resolve cited content ids from search service. Missing " ++
    toString missing.length ++ "/" ++ toString total ++ ": " ++
    pyReprStrList (missing.take 10)

/-- `_build_annotations_for(content_ids_in_order)`: annotation dicts and
citation ids for one answer, looked up in the resolved map (`KeyError`
if an id was never resolved — unreachable after the missing check). -/
def build_annotations_payload (found : List (String × Chunk × String × String)) :
    List String → Except String (List Val × List String)
  | [] => .ok ([], [])
  | cid :: rest =>
    match found.find? (fun e => e.1 == cid) with
    | some (_, ch, fileId, fileName) => do
      let (anns, cits) ← build_annotations_payload found rest
      .ok (Val.dict
        [("id", .str cid),
         ("documentStatement", .dict
           [("documentId", .str fileId),
            ("documentName", .str fileName),
            ("content", .str ch.content),
            ("positions", .list (positions_list ch))])] :: anns,
        cid :: cits)
    | Option.none => .error ("KeyError: " ++ cid)

/-- Write `annotations` and `citation_annotation_ids` into one answer
dict (lines 194-195 and 202-203). -/
def enrichAnswerDict (found : List (String × Chunk × String × String)) (ad : Dict) :
    Except String Dict := do
  let ids ← pyStrListOrEmpty (dget ad "justifying_contents_ids" (.list []))
    "TypeError: justifying_contents_ids must be a list of strings"
  let (anns, cits) ← build_annotations_payload found ids
  pure (dset (dset ad "annotations" (.list anns))
    "citation_annotation_ids" (.list (cits.map Val.str)))

/-- `_enrich_with_annotations(flow_outputs, source_files)` with the
search service injected as `fetch`. Returns the result together with
the trace of checksums fetched from the service. -/
def enrich_with_annotations (fetch : String → List Chunk) (flow_outputs : Dict)
    (source_files : List SourceFile) : Except String Dict × List String :=
  match collect_content_ids flow_outputs with
  | .error e => (.error e, [])
  | .ok content_ids =>
    if content_ids.isEmpty then (.ok flow_outputs, [])
    else
      let unique_content_ids := dedupKeepFirst [] content_ids
      let stp := scanFiles fetch source_files ⟨[], unique_content_ids⟩
      let st := stp.1
      let trace := stp.2
      let missing := sortStrings st.remaining
      if !missing.isEmpty then
        (.error (unresolvedMsg missing unique_content_ids.length), trace)
      else
        let res : Except String Dict := do
          let d1 ←
            if dhas flow_outputs "final_result" then do
              let fr ← match dget flow_outputs "final_result" (.dict []) with
                | .dict fr => Except.ok fr
                | _ => Except.error "AttributeError: final_result is not a dict"
              let fr' ← enrichAnswerDict st.found fr
              pure (dset flow_outputs "final_result" (.dict fr'))
            else pure flow_outputs
          if dhas d1 "answers" then do
            let av := dget d1 "answers" (.list [])
            match (if truthy av then av else .list []) with
            | .list xs => do
              let xs' ← mapME (fun a => do
                match a with
                | .dict ad => do
                  let ad' ← enrichAnswerDict st.found ad
                  pure (Val.dict ad')
                | _ => Except.error "AttributeError: answer is not a dict") xs
              pure (dset d1 "answers" (.list xs'))
            | _ => Except.error "TypeError: answers is not iterable"
          else pure d1
        (res, trace)

/-! ## Flow resolution (`CustomWorkflowActivity._resolve_flow_and_params`
in `src/flow/activity.py`)

`json.loads` and `FlowLoader.load_by_name` are injected: the former as a
partial parse function (`Option Val`, `Option.none` meaning
`json.JSONDecodeError`), the latter as a fallible loader. -/

/-- The relevant fields of `ProcessorCustomWorkflowConfig` (proto string
fields, defaulted to `""`). -/
structure WorkflowConfig where
  workflow_id : String := ""
  additional_inputs : String := ""
deriving Repr, DecidableEq

/-- Python `needle in data` for the shapes `json.loads` can produce:
key lookup on dicts, element equality on lists (a string only ever
equals a string), substring on strings, `TypeError` otherwise. -/
def pyInOp (needle : String) (v : Val) : Except String Bool :=
  match v with
  | .dict kvs => .ok (dhas kvs needle)
  | .list xs => .ok (xs.any (fun x => match x with | .str s => s == needle | _ => false))
  | .str s => .ok (strHasSub s needle)
  | _ => .error "TypeError: argument is not a container"

/-- `_resolve_flow_and_params(cfg)`: an inline flow (parsed
`additional_inputs` holding both `flow_id` and `steps`) wins; otherwise
the parsed value becomes the additional params; a parse failure is only
logged; then the named flow (`workflow_id` or `qa_default`) is loaded. -/
def resolve_flow_and_params (jsonLoads : String → Option Val)
    (loadByName : String → Except String Val)
    (cfg : WorkflowConfig) : Except String (Val × Val) := do
  let fallback : Val → Except String (Val × Val) := fun addl => do
    let flow_name := if cfg.workflow_id != "" then cfg.workflow_id else "qa_default"
    let flow_dict ← loadByName flow_name
    pure (flow_dict, addl)
  if cfg.additional_inputs != "" then
    match jsonLoads cfg.additional_inputs with
    | some data => do
      let hasFlowId ← pyInOp "flow_id" data
      if hasFlowId then do
        let hasSteps ← pyInOp "steps" data
        if hasSteps then pure (data, .dict [])
        else fallback data
      else fallback data
    | Option.none => fallback (.dict [])
  else fallback (.dict [])

/-! ## General lemmas about the helper functions -/

set_option maxRecDepth 10000

theorem mapME_ok_mem {α β : Type} {f : α → Except String β} :
    ∀ {xs : List α} {ys : List β}, mapME f xs = .ok ys →
      ∀ y ∈ ys, ∃ x ∈ xs, f x = .ok y := by
  intro xs
  induction xs with
  | nil =>
    intro ys h y hy
    simp only [mapME] at h
    cases h
    simp at hy
  | cons x xs ih =>
    intro ys h y hy
    simp only [mapME, bind, Except.bind] at h
    cases hfx : f x with
    | error e => rw [hfx] at h; cases h
    | ok b =>
      rw [hfx] at h
      cases hrest : mapME f xs with
      | error e => rw [hrest] at h; cases h
      | ok bs =>
        rw [hrest] at h
        simp only [pure, Except.pure] at h
        cases h
        rcases List.mem_cons.mp hy with hy | hy
        · exact ⟨x, List.mem_cons_self x xs, by rw [hfx, hy]⟩
        · obtain ⟨x', hx', hfx'⟩ := ih hrest y hy
          exact ⟨x', List.mem_cons_of_mem x hx', hfx'⟩

theorem mapME_ok_pointwise {α β : Type} {f : α → Except String β} :
    ∀ {xs : List α} {ys : List β}, mapME f xs = .ok ys →
      xs.length = ys.length ∧
        ∀ (i : Nat) (x : α) (y : β), xs[i]? = some x → ys[i]? = some y → f x = .ok y := by
  intro xs
  induction xs with
  | nil =>
    intro ys h
    simp only [mapME] at h
    cases h
    exact ⟨rfl, by intro i x y hx hy; simp at hx⟩
  | cons x xs ih =>
    intro ys h
    simp only [mapME, bind, Except.bind] at h
    cases hfx : f x with
    | error e => rw [hfx] at h; cases h
    | ok b =>
      rw [hfx] at h
      cases hrest : mapME f xs with
      | error e => rw [hrest] at h; cases h
      | ok bs =>
        rw [hrest] at h
        simp only [pure, Except.pure] at h
        cases h
        obtain ⟨hlen, hpt⟩ := ih hrest
        refine ⟨by simp [hlen], ?_⟩
        intro i x' y hx hy
        cases i with
        | zero =>
          simp only [List.getElem?_cons_zero] at hx hy
          cases hx; cases hy; exact hfx
        | succ j =>
          simp only [List.getElem?_cons_succ] at hx hy
          exact hpt j x' y hx hy

theorem dgetOpt_dset_self (d : Dict) (k : String) (v : Val) :
    dgetOpt (dset d k v) k = some v := by
  induction d with
  | nil => simp [dset, dgetOpt, List.find?]
  | cons kv rest ih =>
    obtain ⟨k0, v0⟩ := kv
    by_cases h : k0 = k
    · subst h
      simp [dset, dgetOpt, List.find?]
    · have hb : (k0 == k) = false := beq_false_of_ne h
      simp only [dset, hb, Bool.false_eq_true, if_false]
      simp only [dgetOpt, List.find?, hb] at ih ⊢
      exact ih

theorem dgetOpt_dset_ne (d : Dict) (k k' : String) (v : Val) (hne : k ≠ k') :
    dgetOpt (dset d k v) k' = dgetOpt d k' := by
  induction d with
  | nil =>
    have hb : (k == k') = false := beq_false_of_ne hne
    simp [dset, dgetOpt, List.find?, hb]
  | cons kv rest ih =>
    obtain ⟨k0, v0⟩ := kv
    by_cases h : k0 = k
    · subst h
      have hb : (k0 == k') = false := beq_false_of_ne hne
      simp [dset, dgetOpt, List.find?, hb]
    · have hb : (k0 == k) = false := beq_false_of_ne h
      simp only [dset, hb, Bool.false_eq_true, if_false]
      by_cases h' : k0 = k'
      · subst h'
        simp [dgetOpt, List.find?]
      · have hb' : (k0 == k') = false := beq_false_of_ne h'
        simp only [dgetOpt, List.find?, hb'] at ih ⊢
        exact ih

theorem dget_dset_self (d : Dict) (k : String) (v dflt : Val) :
    dget (dset d k v) k dflt = v := by
  simp [dget, dgetOpt_dset_self]

theorem dget_dset_ne (d : Dict) (k k' : String) (v dflt : Val) (hne : k ≠ k') :
    dget (dset d k v) k' dflt = dget d k' dflt := by
  simp [dget, dgetOpt_dset_ne d k k' v hne]

theorem dhas_dset_ne (d : Dict) (k k' : String) (v : Val) (hne : k ≠ k') :
    dhas (dset d k v) k' = dhas d k' := by
  simp [dhas, dgetOpt_dset_ne d k k' v hne]

theorem leadsList_iff_append (n h : List Char) :
    leadsList n h = true ↔ ∃ t, h = n ++ t := by
  induction n generalizing h with
  | nil => simp [leadsList]
  | cons a as ih =>
    cases h with
    | nil =>
      simp only [leadsList, List.cons_append]
      constructor
      · intro hfalse; cases hfalse
      · rintro ⟨t, ht⟩; cases ht
    | cons b bs =>
      simp only [leadsList, Bool.and_eq_true, beq_iff_eq, ih, List.cons_append]
      constructor
      · rintro ⟨rfl, t, rfl⟩; exact ⟨t, rfl⟩
      · rintro ⟨t, ht⟩
        injection ht with h1 h2
        exact ⟨h1.symm, t, h2⟩

theorem subList_iff_parts (n h : List Char) :
    subList n h = true ↔ ∃ l r, h = l ++ n ++ r := by
  induction h with
  | nil =>
    simp only [subList, List.isEmpty_iff]
    constructor
    · rintro rfl; exact ⟨[], [], rfl⟩
    · rintro ⟨l, r, hlr⟩
      rcases List.append_eq_nil.mp (List.append_eq_nil.mp hlr.symm).1 with ⟨-, h2⟩
      exact h2
  | cons b bs ih =>
    simp only [subList, Bool.or_eq_true, leadsList_iff_append, ih]
    constructor
    · rintro (⟨t, ht⟩ | ⟨l, r, hlr⟩)
      · exact ⟨[], t, by simp [ht]⟩
      · exact ⟨b :: l, r, by simp [hlr]⟩
    · rintro ⟨l, r, hlr⟩
      cases l with
      | nil => exact Or.inl ⟨r, by simpa using hlr⟩
      | cons c cs =>
        injection hlr with h1 h2
        exact Or.inr ⟨cs, r, h2⟩

theorem subList_trans {a b c : List Char} (hab : subList a b = true)
    (hbc : subList b c = true) : subList a c = true := by
  rw [subList_iff_parts] at hab hbc ⊢
  obtain ⟨l1, r1, rfl⟩ := hab
  obtain ⟨l2, r2, rfl⟩ := hbc
  exact ⟨l2 ++ l1, r1 ++ r2, by simp⟩

theorem strHasSub_trans {a b c : String} (h1 : strHasSub b a = true)
    (h2 : strHasSub c b = true) : strHasSub c a = true :=
  subList_trans h1 h2

theorem strHasSub_of_parts (hay needle pre post : String)
    (h : hay = pre ++ needle ++ post) : strHasSub hay needle = true := by
  subst h
  rw [strHasSub, subList_iff_parts]
  exact ⟨pre.data, post.data, by simp⟩

theorem strHasSub_refl (s : String) : strHasSub s s = true :=
  strHasSub_of_parts s s "" "" (by simp)

theorem mem_joinSep_sub (sep : String) :
    ∀ (xs : List String) (x : String), x ∈ xs → strHasSub (joinSep sep xs) x = true := by
  intro xs
  induction xs with
  | nil => intro x hx; simp at hx
  | cons a rest ih =>
    intro x hx
    cases rest with
    | nil =>
      rcases List.mem_singleton.mp hx with rfl
      exact strHasSub_refl x
    | cons b bs =>
      rcases List.mem_cons.mp hx with rfl | hx'
      · exact strHasSub_of_parts _ x "" (sep ++ joinSep sep (b :: bs))
          (by simp [joinSep, String.append_assoc])
      · refine strHasSub_trans (ih x hx') ?_
        exact strHasSub_of_parts _ (joinSep sep (b :: bs)) (a ++ sep) ""
          (by simp [joinSep, String.append_assoc])

theorem mem_pyReprStrList_sub (xs : List String) (x : String) (hx : x ∈ xs) :
    strHasSub (pyReprStrList xs) x = true := by
  have h1 : strHasSub (squote ++ x ++ squote) x = true :=
    strHasSub_of_parts _ x squote squote rfl
  have h2 : strHasSub (joinSep ", " (xs.map (fun s => squote ++ s ++ squote)))
      (squote ++ x ++ squote) = true :=
    mem_joinSep_sub ", " _ _ (List.mem_map_of_mem _ hx)
  refine strHasSub_trans (strHasSub_trans h1 h2) ?_
  exact strHasSub_of_parts _ (joinSep ", " (xs.map (fun s => squote ++ s ++ squote)))
    "[" "]" rfl

theorem mem_pyReprStrSet_sub (xs : List String) (x : String) (hx : x ∈ xs) :
    strHasSub (pyReprStrSet xs) x = true := by
  have h1 : strHasSub (squote ++ x ++ squote) x = true :=
    strHasSub_of_parts _ x squote squote rfl
  have h2 : strHasSub (joinSep ", " (xs.map (fun s => squote ++ s ++ squote)))
      (squote ++ x ++ squote) = true :=
    mem_joinSep_sub ", " _ _ (List.mem_map_of_mem _ hx)
  refine strHasSub_trans (strHasSub_trans h1 h2) ?_
  exact strHasSub_of_parts _ (joinSep ", " (xs.map (fun s => squote ++ s ++ squote)))
    "\x7b" "\x7d" rfl

/-! ## Lemmas about the stable sort -/

theorem perm_insertSortedBy (le : α → α → Bool) (x : α) (l : List α) :
    List.Perm (insertSortedBy le x l) (x :: l) := by
  induction l with
  | nil => exact List.Perm.refl _
  | cons y ys ih =>
    simp only [insertSortedBy]
    by_cases h : le x y = true
    · rw [if_pos h]
    · rw [if_neg h]
      exact (ih.cons y).trans (List.Perm.swap x y ys)

theorem perm_stableSortBy (le : α → α → Bool) (l : List α) :
    List.Perm (stableSortBy le l) l := by
  induction l with
  | nil => exact List.Perm.refl _
  | cons x xs ih =>
    exact (perm_insertSortedBy le x (stableSortBy le xs)).trans (ih.cons x)

theorem pairwise_insertSortedBy (le : α → α → Bool)
    (htot : ∀ a b, le a b = true ∨ le b a = true)
    (htrans : ∀ a b c, le a b = true → le b c = true → le a c = true)
    (x : α) (l : List α) (hl : l.Pairwise (fun a b => le a b = true)) :
    (insertSortedBy le x l).Pairwise (fun a b => le a b = true) := by
  induction l with
  | nil => simp [insertSortedBy]
  | cons y ys ih =>
    rcases List.pairwise_cons.mp hl with ⟨hy, hys⟩
    simp only [insertSortedBy]
    by_cases h : le x y = true
    · rw [if_pos h]
      refine List.pairwise_cons.mpr ⟨?_, hl⟩
      intro z hz
      rcases List.mem_cons.mp hz with rfl | hz'
      · exact h
      · exact htrans x y z h (hy z hz')
    · rw [if_neg h]
      refine List.pairwise_cons.mpr ⟨?_, ih hys⟩
      intro z hz
      have hz2 : z ∈ x :: ys := (perm_insertSortedBy le x ys).mem_iff.mp hz
      rcases List.mem_cons.mp hz2 with rfl | hz'
      · rcases htot z y with h' | h'
        · exact absurd h' h
        · exact h'
      · exact hy z hz'

theorem pairwise_stableSortBy (le : α → α → Bool)
    (htot : ∀ a b, le a b = true ∨ le b a = true)
    (htrans : ∀ a b c, le a b = true → le b c = true → le a c = true)
    (l : List α) :
    (stableSortBy le l).Pairwise (fun a b => le a b = true) := by
  induction l with
  | nil => simp [stableSortBy]
  | cons x xs ih =>
    exact pairwise_insertSortedBy le htot htrans x (stableSortBy le xs) ih

theorem intKeyTotal (kf : α → Int) :
    ∀ a b, (decide (kf a ≤ kf b)) = true ∨ (decide (kf b ≤ kf a)) = true := by
  intro a b
  rcases Int.le_total (kf a) (kf b) with h | h
  · exact Or.inl (by simpa using h)
  · exact Or.inr (by simpa using h)

theorem intKeyTrans (kf : α → Int) :
    ∀ a b c, (decide (kf a ≤ kf b)) = true → (decide (kf b ≤ kf c)) = true →
      (decide (kf a ≤ kf c)) = true := by
  intro a b c hab hbc
  simp only [decide_eq_true_eq] at hab hbc ⊢
  exact le_trans hab hbc

theorem filter_insertSortedBy_ne (kf : α → Int) (k : Int) (x : α) (l : List α)
    (hx : (kf x == k) = false) :
    (insertSortedBy (fun a b => decide (kf a ≤ kf b)) x l).filter (fun a => kf a == k)
      = l.filter (fun a => kf a == k) := by
  induction l with
  | nil => simp [insertSortedBy, List.filter_cons, hx]
  | cons y ys ih =>
    simp only [insertSortedBy]
    by_cases h : (decide (kf x ≤ kf y)) = true
    · rw [if_pos h]
      simp [List.filter_cons, hx]
    · rw [if_neg h]
      simp [List.filter_cons, ih]

theorem filter_insertSortedBy_eq (kf : α → Int) (x : α) (l : List α)
    (hl : l.Pairwise (fun a b => (decide (kf a ≤ kf b)) = true)) :
    (insertSortedBy (fun a b => decide (kf a ≤ kf b)) x l).filter (fun a => kf a == kf x)
      = x :: l.filter (fun a => kf a == kf x) := by
  induction l with
  | nil => simp [insertSortedBy, List.filter_cons]
  | cons y ys ih =>
    rcases List.pairwise_cons.mp hl with ⟨hy, hys⟩
    simp only [insertSortedBy]
    by_cases h : (decide (kf x ≤ kf y)) = true
    · rw [if_pos h]
      simp [List.filter_cons]
    · rw [if_neg h]
      have hlt : kf y < kf x := by
        have h' : ¬ (kf x ≤ kf y) := by simpa using h
        exact lt_of_not_le h'
      have hne : (kf y == kf x) = false := beq_false_of_ne (ne_of_lt hlt)
      simp only [List.filter_cons, hne, Bool.false_eq_true, if_false]
      rw [ih hys]

theorem filter_stableSortBy (kf : α → Int) (l : List α) (k : Int) :
    (stableSortBy (fun a b => decide (kf a ≤ kf b)) l).filter (fun a => kf a == k)
      = l.filter (fun a => kf a == k) := by
  induction l with
  | nil => rfl
  | cons x xs ih =>
    have hs := pairwise_stableSortBy (fun a b => decide (kf a ≤ kf b))
      (intKeyTotal kf) (intKeyTrans kf) xs
    simp only [stableSortBy]
    by_cases hx : (kf x == k) = true
    · have hk : kf x = k := beq_iff_eq.mp hx
      subst hk
      rw [filter_insertSortedBy_eq kf x _ hs, ih]
      simp [List.filter_cons]
    · have hx' : (kf x == k) = false := by simpa using hx
      rw [filter_insertSortedBy_ne kf k x _ hx', ih]
      simp [List.filter_cons, hx']

theorem strHasSub_of_parts2 (hay needle pre : String) (h : hay = pre ++ needle) :
    strHasSub hay needle = true := by
  subst h
  rw [strHasSub, subList_iff_parts]
  exact ⟨pre.data, [], by simp⟩

/-! ## Claim C5 — content-id derivation -/

/-- C5 counterexample: the claim's universal injectivity fails. The two
distinct `(document, chunk)` pairs `("a:b", "c")` and `("a", "b:c")`
feed the identical joined string `"a:b:c"` to the uuid5 hash, so their
content ids coincide. -/
theorem c5_counterexample :
    content_id "a:b" "c" = content_id "a" "b:c" ∧ (("a:b" : String) == "a") = false :=
  ⟨rfl, by decide⟩

/-- C5 (amended): content-id derivation is deterministic (deriving twice
yields the same value), and two pairs whose joined strings
`"<doc>:<chunk>"` coincide always collide — in particular the distinct
pairs `("a:b","c")` and `("a","b:c")` receive the same id, so the
derivation is not injective on pairs. -/
theorem c5_content_id_deterministic_not_injective :
    (∀ d c, content_id d c = content_id d c) ∧
    (∀ d1 c1 d2 c2, d1 ++ ":" ++ c1 = d2 ++ ":" ++ c2 →
      content_id d1 c1 = content_id d2 c2) ∧
    (content_id "a:b" "c" = content_id "a" "b:c" ∧ (("a:b" : String) == "a") = false) := by
  refine ⟨fun d c => rfl, fun d1 c1 d2 c2 h => ?_, rfl, by decide⟩
  unfold content_id
  rw [h]

/-- C5 witness: the collision rule of the amended claim applied at the
concrete pair. -/
theorem c5_witness :
    content_id "a:b" "c" = content_id "a" "b:c" :=
  c5_content_id_deterministic_not_injective.2.1 "a:b" "c" "a" "b:c" rfl

/-! ## Claim C9 — unrecognized output format -/

/-- C9: an output with neither a `final_result` nor an `answers` key is
rejected with a message reporting the actual top-level keys, each key
occurring verbatim in the message; in particular `{"foo": 1}` is
rejected listing `['foo']`. -/
theorem c9_unrecognized_format :
    (∀ (outs : Dict) (qs : List Question),
      dhas outs "final_result" = false → dhas outs "answers" = false →
      to_question_answers outs qs = .error (unrecognizedMsg (dkeys outs)) ∧
      ∀ k ∈ dkeys outs, strHasSub (unrecognizedMsg (dkeys outs)) k = true) ∧
    (to_question_answers [("foo", .num 1)] [] = .error (unrecognizedMsg ["foo"]) ∧
      strHasSub (unrecognizedMsg ["foo"]) "foo" = true) := by
  refine ⟨?_, by rfl, by decide⟩
  intro outs qs h1 h2
  refine ⟨by simp [to_question_answers, h1, h2], ?_⟩
  intro k hk
  exact strHasSub_trans (mem_pyReprStrList_sub (dkeys outs) k hk)
    (strHasSub_of_parts2 _ _ _ rfl)

/-- C9 witness: the general rejection applied at `{"foo": 1}`. -/
theorem c9_witness :
    dhas [("foo", Val.num 1)] "final_result" = false ∧
    dhas [("foo", Val.num 1)] "answers" = false ∧
    to_question_answers [("foo", Val.num 1)] [] = .error (unrecognizedMsg ["foo"]) := by
  have h := c9_unrecognized_format.1 [("foo", Val.num 1)] [] rfl rfl
  exact ⟨rfl, rfl, h.1⟩

/-! ## Claim C10 — unparseable `additional_inputs` -/

/-- A parse function that always fails (a concrete stand-in for
`json.loads` on malformed text). -/
def c10Loads : String → Option Val := fun _ => Option.none

/-- A loader that returns a marker value for the requested flow name. -/
def c10Loader : String → Except String Val := fun n => .ok (.str n)

/-- A task config with a workflow id and a non-empty, unparseable
`additional_inputs` blob. -/
def c10Cfg : WorkflowConfig := { workflow_id := "wf", additional_inputs := "not-json" }

/-- C10: when `additional_inputs` is non-empty but fails to parse as
JSON, flow resolution does not fail there: it falls back to the named
flow (`workflow_id`, or `qa_default` when empty) with no additional
parameters merged — the result is exactly the loader's result paired
with the empty parameter dict. -/
theorem c10_parse_failure_falls_back :
    ∀ (jsonLoads : String → Option Val) (loadByName : String → Except String Val)
      (cfg : WorkflowConfig),
      (cfg.additional_inputs != "") = true →
      jsonLoads cfg.additional_inputs = Option.none →
      resolve_flow_and_params jsonLoads loadByName cfg =
        Except.map (fun flow => (flow, Val.dict []))
          (loadByName (if cfg.workflow_id != "" then cfg.workflow_id else "qa_default")) := by
  intro jl lbn cfg h1 h2
  simp only [resolve_flow_and_params, h1, h2, if_true]
  cases hl : lbn (if cfg.workflow_id != "" then cfg.workflow_id else "qa_default") with
  | error e => simp [bind, Except.bind, hl, Except.map]
  | ok flow => simp [bind, Except.bind, hl, Except.map, pure, Except.pure]

/-- C10 witness: the fallback applied at a concrete unparseable config:
the whole invocation resolves to the named flow with empty params. -/
theorem c10_witness :
    (c10Cfg.additional_inputs != "") = true ∧
    c10Loads c10Cfg.additional_inputs = Option.none ∧
    resolve_flow_and_params c10Loads c10Loader c10Cfg = .ok (.str "wf", .dict []) := by
  have h := c10_parse_failure_falls_back c10Loads c10Loader c10Cfg rfl rfl
  exact ⟨rfl, rfl, h.trans rfl⟩

/-! ## Claim C7 — no-op enrichment -/

theorem dhas_of_dget_dict {outs : Dict} {k : String} {fr : Dict}
    (h : dget outs k .none = .dict fr) : dhas outs k = true := by
  cases hopt : dgetOpt outs k with
  | none => rw [dget, hopt] at h; cases h
  | some v => simp [dhas, hopt]

theorem dget_eq_of_dgetOpt {outs : Dict} {k : String} {v : Val}
    (h : dgetOpt outs k = some v) (dflt : Val) : dget outs k dflt = v := by
  simp [dget, h]

/-- C7: when no content ids are referenced — the single-question
`final_result` has an empty or absent `justifying_contents_ids`, or every
element of the multi-question `answers` list does — the id collection is
empty, and enrichment with an empty collection returns the outputs
unchanged with an empty fetch trace, i.e. without any call to the
external chunk/search service. -/
theorem c7_noop_enrichment :
    (∀ (outs : Dict) (fr : Dict),
      dget outs "final_result" .none = .dict fr →
      dget fr "justifying_contents_ids" (.list []) = .list [] →
      collect_content_ids outs = .ok []) ∧
    (∀ (outs : Dict) (raws : List Val),
      dhas outs "final_result" = false →
      dget outs "answers" .none = .list raws →
      (∀ r ∈ raws, ∃ ad, r = Val.dict ad ∧
        dget ad "justifying_contents_ids" (.list []) = .list []) →
      collect_content_ids outs = .ok []) ∧
    (∀ (fetch : String → List Chunk) (outs : Dict) (files : List SourceFile),
      collect_content_ids outs = .ok [] →
      enrich_with_annotations fetch outs files = (.ok outs, [])) := by
  refine ⟨?_, ?_, ?_⟩
  · intro outs fr h1 h2
    cases hopt : dgetOpt outs "final_result" with
    | none => rw [dget, hopt] at h1; cases h1
    | some v =>
      rw [dget, hopt] at h1
      subst h1
      have hh : dhas outs "final_result" = true := by simp [dhas, hopt]
      have hfr : dget outs "final_result" (Val.dict []) = Val.dict fr := by
        simp [dget, hopt]
      simp only [collect_content_ids, hh, if_true, hfr]
      rw [h2]
      rfl
  · intro outs raws h0 h1 hall
    cases hopt : dgetOpt outs "answers" with
    | none => rw [dget, hopt] at h1; cases h1
    | some v =>
      rw [dget, hopt] at h1
      subst h1
      have hh : dhas outs "answers" = true := by simp [dhas, hopt]
      have hav : dget outs "answers" (Val.list []) = Val.list raws := by
        simp [dget, hopt]
      have key : ∀ (rs : List Val), (∀ r ∈ rs, ∃ ad, r = Val.dict ad ∧
          dget ad "justifying_contents_ids" (.list []) = .list []) →
          mapME (fun a =>
            match a with
            | .dict ad =>
              pyStrListOrEmpty (dget ad "justifying_contents_ids" (.list []))
                "TypeError: justifying_contents_ids must be a list of strings"
            | _ => .error "AttributeError: answer is not a dict") rs
            = .ok (rs.map (fun _ => ([] : List String))) := by
        intro rs hrs
        induction rs with
        | nil => rfl
        | cons r rest ih =>
          obtain ⟨ad, rfl, had⟩ := hrs r (List.mem_cons_self r rest)
          have ihh := ih (fun r' hr' => hrs r' (List.mem_cons_of_mem _ hr'))
          simp only [mapME, had, List.map_cons]
          rw [ihh]
          rfl
      have hflat : ∀ (rs : List Val),
          (rs.map (fun _ => ([] : List String))).flatten = [] := by
        intro rs
        induction rs with
        | nil => rfl
        | cons a t ih => simpa using ih
      by_cases hraws : truthy (Val.list raws) = true
      · simp only [collect_content_ids, h0, hh, if_true, Bool.false_eq_true, if_false,
          hav, hraws]
        rw [key raws hall]
        simp [bind, Except.bind, pure, Except.pure, hflat raws]
      · have hraws' : truthy (Val.list raws) = false := by simpa using hraws
        simp only [collect_content_ids, h0, hh, if_true, Bool.false_eq_true, if_false,
          hav, hraws']
        rfl
  · intro fetch outs files h
    rw [enrich_with_annotations, h]
    rfl

/-- A concrete single-question output with no referenced content ids. -/
def c7Outs : Dict :=
  [("final_result", .dict [("answer", .str "X"), ("justifying_contents_ids", .list []),
    ("answer_explanation", .str "E")])]

/-- A fetch stub that would return a chunk if it were ever called. -/
def c7Fetch : String → List Chunk := fun _ => [{ id := "ch1", content := "t" }]

/-- C7 witness: the no-op behaviour applied at a concrete citation-free
output — enrichment returns it unchanged and fetches nothing. -/
theorem c7_witness :
    collect_content_ids c7Outs = .ok [] ∧
    enrich_with_annotations c7Fetch c7Outs [{ id := "d1", checksum := "c1" }] =
      (.ok c7Outs, []) := by
  have h1 := c7_noop_enrichment.1 c7Outs
    [("answer", Val.str "X"), ("justifying_contents_ids", Val.list []),
     ("answer_explanation", Val.str "E")] rfl rfl
  exact ⟨h1, c7_noop_enrichment.2.2 c7Fetch c7Outs [{ id := "d1", checksum := "c1" }] h1⟩

/-! ## Claim C8 — missing required fields in multi-question elements -/

/-- `true` exactly on `Except.ok`. -/
def isOkB {α : Type} : Except String α → Bool
  | .ok _ => true
  | .error _ => false

/-- The required fields a multi-question element lacks, in the source's
set-literal order. -/
def missing_multi_fields (raw : Dict) : List String :=
  multiRequiredFields.filter (fun f => !(dhas raw f))

theorem process_multi_answer_missing (qs : List Question) (idx : Nat) (raw : Dict)
    (h : (missing_multi_fields raw).isEmpty = false) :
    process_multi_answer qs idx (.dict raw) =
      .error (multiMissingFieldsMsg idx (missing_multi_fields raw)) := by
  have hcond : (!(missing_multi_fields raw).isEmpty) = true := by simp [h]
  simp only [process_multi_answer, bind, Except.bind, missing_multi_fields] at hcond ⊢
  rw [if_pos hcond]

theorem process_multi_answers_ok_all (qs : List Question) :
    ∀ (raws : List Val) (idx : Nat) (l : List QuestionAnswer),
      process_multi_answers qs idx raws = .ok l →
      ∀ (i : Nat) (r : Val), raws[i]? = some r →
        ∃ qa, process_multi_answer qs (idx + i) r = .ok qa := by
  intro raws
  induction raws with
  | nil =>
    intro idx l h i r hi
    simp at hi
  | cons p ps ih =>
    intro idx l h i r hi
    simp only [process_multi_answers, bind, Except.bind] at h
    cases hp : process_multi_answer qs idx p with
    | error e => rw [hp] at h; cases h
    | ok qa =>
      rw [hp] at h
      cases hps : process_multi_answers qs (idx + 1) ps with
      | error e => rw [hps] at h; cases h
      | ok l' =>
        cases i with
        | zero =>
          simp only [List.getElem?_cons_zero] at hi
          cases hi
          exact ⟨qa, by simpa using hp⟩
        | succ j =>
          simp only [List.getElem?_cons_succ] at hi
          obtain ⟨qa', hqa'⟩ := ih (idx + 1) l' hps j r hi
          exact ⟨qa', by rw [← hqa']; congr 1; omega⟩

theorem process_multi_answers_append_error (qs : List Question) :
    ∀ (pre : List Val) (idx : Nat) (l1 : List QuestionAnswer) (raw : Val)
      (rest : List Val) (e : String),
      process_multi_answers qs idx pre = .ok l1 →
      process_multi_answer qs (idx + pre.length) raw = .error e →
      process_multi_answers qs idx (pre ++ raw :: rest) = .error e := by
  intro pre
  induction pre with
  | nil =>
    intro idx l1 raw rest e h1 h2
    simp only [List.length_nil, Nat.add_zero] at h2
    simp only [List.nil_append, process_multi_answers, bind, Except.bind, h2]
  | cons p ps ih =>
    intro idx l1 raw rest e h1 h2
    simp only [process_multi_answers, bind, Except.bind] at h1
    cases hp : process_multi_answer qs idx p with
    | error e' => rw [hp] at h1; cases h1
    | ok qa =>
      rw [hp] at h1
      cases hps : process_multi_answers qs (idx + 1) ps with
      | error e' => rw [hps] at h1; cases h1
      | ok l' =>
        have h2' : process_multi_answer qs ((idx + 1) + ps.length) raw = .error e := by
          rw [← h2]; congr 1; simp [List.length_cons]; omega
        have hrec := ih (idx + 1) l' raw rest e hps h2'
        rw [List.cons_append, process_multi_answers]
        simp only [bind, Except.bind, hp]
        rw [hrec]

/-- C8: a multi-question element that is a dict missing one or more of
the required fields `{id, question, answer, justifying_contents_ids,
answer_explanation}` makes resolution fail (no answer list is ever
produced); the first such element yields exactly the indexed
missing-fields error, whose message contains the element's index and
every missing field name; in particular `{"answers": [{"id": "q1"}]}` is
rejected naming `question`, `answer`, `justifying_contents_ids` and
`answer_explanation`. -/
theorem c8_missing_fields_rejected :
    (∀ (outs : Dict) (qs : List Question) (raws : List Val) (i : Nat) (raw : Dict),
      dget outs "answers" .none = .list raws →
      raws[i]? = some (.dict raw) →
      (missing_multi_fields raw).isEmpty = false →
      isOkB (handle_multi_question outs qs) = false) ∧
    (∀ (outs : Dict) (qs : List Question) (pre : List Val) (raw : Dict)
      (rest : List Val) (l1 : List QuestionAnswer),
      dget outs "answers" .none = .list (pre ++ .dict raw :: rest) →
      process_multi_answers qs 0 pre = .ok l1 →
      (missing_multi_fields raw).isEmpty = false →
      handle_multi_question outs qs =
        .error (multiMissingFieldsMsg pre.length (missing_multi_fields raw)) ∧
      strHasSub (multiMissingFieldsMsg pre.length (missing_multi_fields raw))
        (toString pre.length) = true ∧
      ∀ f ∈ missing_multi_fields raw,
        strHasSub (multiMissingFieldsMsg pre.length (missing_multi_fields raw)) f = true) ∧
    (to_question_answers [("answers", .list [.dict [("id", .str "q1")]])] [] =
      .error (multiMissingFieldsMsg 0
        ["question", "answer", "justifying_contents_ids", "answer_explanation"]) ∧
      strHasSub (multiMissingFieldsMsg 0
        ["question", "answer", "justifying_contents_ids", "answer_explanation"])
          "question" = true ∧
      strHasSub (multiMissingFieldsMsg 0
        ["question", "answer", "justifying_contents_ids", "answer_explanation"])
          "answer" = true ∧
      strHasSub (multiMissingFieldsMsg 0
        ["question", "answer", "justifying_contents_ids", "answer_explanation"])
          "justifying_contents_ids" = true ∧
      strHasSub (multiMissingFieldsMsg 0
        ["question", "answer", "justifying_contents_ids", "answer_explanation"])
          "answer_explanation" = true) := by
  refine ⟨?_, ?_, by rfl, by decide, by decide, by decide, by decide⟩
  · intro outs qs raws i raw h1 h2 h3
    cases h : handle_multi_question outs qs with
    | error e => rfl
    | ok l =>
      exfalso
      rw [handle_multi_question, h1] at h
      simp only [bind, Except.bind] at h
      cases hpa : process_multi_answers qs 0 raws with
      | error e => rw [hpa] at h; cases h
      | ok l0 =>
        obtain ⟨qa, hqa⟩ := process_multi_answers_ok_all qs raws 0 l0 hpa i (.dict raw) h2
        rw [process_multi_answer_missing qs (0 + i) raw h3] at hqa
        cases hqa
  · intro outs qs pre raw rest l1 h1 h2 h3
    have herr := process_multi_answers_append_error qs pre 0 l1 (.dict raw) rest
      (multiMissingFieldsMsg pre.length (missing_multi_fields raw)) h2
      (by simpa using process_multi_answer_missing qs (0 + pre.length) raw h3)
    refine ⟨?_, ?_, ?_⟩
    · rw [handle_multi_question, h1]
      simp only [bind, Except.bind]
      rw [herr]
    · exact strHasSub_of_parts _ (toString pre.length) "Answer at index "
        (" missing required fields: " ++ pyReprStrSet (missing_multi_fields raw))
        (by simp [multiMissingFieldsMsg, String.append_assoc])
    · intro f hf
      exact strHasSub_trans (mem_pyReprStrSet_sub _ f hf) (strHasSub_of_parts2 _ _ _ rfl)

/-- C8 witness: the general rejection applied at the claim's concrete
input `{"answers": [{"id": "q1"}]}` — resolution produces no answer
list. -/
theorem c8_witness :
    dget [("answers", Val.list [.dict [("id", .str "q1")]])] "answers" .none =
      .list [.dict [("id", .str "q1")]] ∧
    (missing_multi_fields [("id", .str "q1")]).isEmpty = false ∧
    isOkB (handle_multi_question [("answers", Val.list [.dict [("id", .str "q1")]])] []) =
      false := by
  refine ⟨rfl, by decide, ?_⟩
  exact c8_missing_fields_rejected.1 [("answers", Val.list [.dict [("id", .str "q1")]])]
    [] [.dict [("id", .str "q1")]] 0 [("id", .str "q1")] rfl rfl (by decide)

/-! ## Claim C2 — citation linkage invariant -/

theorem dget_of_dhas_false {d : Dict} {k : String} (dflt : Val) (h : dhas d k = false) :
    dget d k dflt = dflt := by
  cases hopt : dgetOpt d k with
  | none => simp [dget, hopt]
  | some v => simp [dhas, hopt] at h

theorem dhas_of_dget_some {d : Dict} {k : String} {dflt v : Val}
    (h : dget d k dflt = v) (hne : v ≠ dflt) : dhas d k = true := by
  cases hopt : dgetOpt d k with
  | none =>
    simp only [dget, hopt, Option.getD_none] at h
    exact absurd h.symm hne
  | some w => simp [dhas, hopt]

theorem handle_single_citation_fail (outs : Dict) (qs : List Question) (fr : Dict)
    (xs : List Val)
    (hfr : dget outs "final_result" .none = .dict fr)
    (hj : dget fr "justifying_contents_ids" .none = .list xs)
    (hne : xs.isEmpty = false)
    (hcit : pyStrListOrEmpty (dget fr "citation_annotation_ids" (.list []))
      "TypeError: citation ids must be strings" = .ok []) :
    isOkB (handle_single_question outs qs) = false := by
  simp only [handle_single_question, bind, Except.bind, hfr]
  by_cases ht : truthy (.dict fr) = true
  · rw [if_pos ht]
    by_cases hm : (!(singleRequiredFields.filter (fun f => !(dhas fr f))).isEmpty) = true
    · rw [if_pos hm]; rfl
    · rw [if_neg hm]
      cases h1 : asStr (dget fr "answer" .none) "final_result.answer must be a string" with
      | error e => rfl
      | ok ans =>
        rw [hj]
        cases h2 : asStr (dget fr "answer_explanation" .none)
            "final_result.answer_explanation must be a string" with
        | error e => rfl
        | ok ex =>
          cases qs with
          | nil => rfl
          | cons q qs' =>
            rw [hcit]
            simp [isOkB, hne, pure, Except.pure]
  · rw [if_neg ht]
    rfl

theorem process_multi_citation_fail (qs : List Question) (idx : Nat) (raw : Dict)
    (xs : List Val)
    (hj : dget raw "justifying_contents_ids" .none = .list xs)
    (hne : xs.isEmpty = false)
    (hcit : pyStrListOrEmpty (dget raw "citation_annotation_ids" (.list []))
      "TypeError: citation ids must be strings" = .ok []) :
    isOkB (process_multi_answer qs idx (.dict raw)) = false := by
  simp only [process_multi_answer, bind, Except.bind]
  by_cases hm : (!(multiRequiredFields.filter (fun f => !(dhas raw f))).isEmpty) = true
  · rw [if_pos hm]; rfl
  · rw [if_neg hm]
    cases h1 : asStr (dget raw "id" .none) (fieldTypeMsg idx "id" "string") with
    | error e => rfl
    | ok aid =>
      cases h2 : asStr (dget raw "question" .none) (fieldTypeMsg idx "question" "string") with
      | error e => rfl
      | ok q =>
        cases h3 : asStr (dget raw "answer" .none) (fieldTypeMsg idx "answer" "string") with
        | error e => rfl
        | ok ans =>
          rw [hj]
          cases h4 : asStr (dget raw "answer_explanation" .none)
              (fieldTypeMsg idx "answer_explanation" "string") with
          | error e => rfl
          | ok ex =>
            rw [hcit]
            simp [isOkB, hne, pure, Except.pure]

theorem handle_single_success_shape (outs : Dict) (fr : Dict) (q : Question)
    (qs' : List Question) (ans ex : String)
    (hfr : dget outs "final_result" .none = .dict fr)
    (hnefr : truthy (.dict fr) = true)
    (ha : dget fr "answer" .none = .str ans)
    (hj : dget fr "justifying_contents_ids" .none = .list [])
    (hx : dget fr "answer_explanation" .none = .str ex)
    (hc : dhas fr "citation_annotation_ids" = false)
    (han : dhas fr "annotations" = false)
    (hav : dhas fr "answer_validity" = false)
    (hve : dhas fr "validity_explanation" = false) :
    handle_single_question outs (q :: qs') =
      .ok [{ id := q.id, question := q.question, expectedAnswer := q.expectedAnswer,
             sourcedContent := ans, explanation := ex, answerValidity := 1,
             validityExplanation := "", annotations := [],
             inputQuestionIds := q.inputQuestionIds }] := by
  have h1 : dhas fr "answer" = true := dhas_of_dget_some ha (by intro hh; cases hh)
  have h2 : dhas fr "justifying_contents_ids" = true :=
    dhas_of_dget_some hj (by intro hh; cases hh)
  have h3 : dhas fr "answer_explanation" = true := dhas_of_dget_some hx (by intro hh; cases hh)
  have hmiss : singleRequiredFields.filter (fun f => !(dhas fr f)) = [] := by
    simp [singleRequiredFields, h1, h2, h3]
  have hcv : dget fr "citation_annotation_ids" (.list []) = .list [] :=
    dget_of_dhas_false _ hc
  have hanv : dget fr "annotations" (.list []) = .list [] := dget_of_dhas_false _ han
  have havv : dget fr "answer_validity" (.num 1) = .num 1 := dget_of_dhas_false _ hav
  have hvev : dget fr "validity_explanation" (.str "") = .str "" := dget_of_dhas_false _ hve
  have hne2 : (!fr.isEmpty) = true := hnefr
  simp [handle_single_question, bind, Except.bind, pure, Except.pure, hfr, hne2, hmiss,
    ha, hj, hx, hcv, hanv, havv, hvev, asStr, asRatNum, pyStrListOrEmpty, truthy, mapME,
    build_annotations]

theorem process_multi_success_shape (qs : List Question) (idx : Nat) (raw : Dict)
    (aid qtext ans ex : String)
    (hid : dget raw "id" .none = .str aid)
    (hq : dget raw "question" .none = .str qtext)
    (ha : dget raw "answer" .none = .str ans)
    (hj : dget raw "justifying_contents_ids" .none = .list [])
    (hx : dget raw "answer_explanation" .none = .str ex)
    (hc : dhas raw "citation_annotation_ids" = false)
    (hea : dhas raw "expected_answer" = false)
    (han : dhas raw "annotations" = false)
    (hav : dhas raw "answer_validity" = false)
    (hve : dhas raw "validity_explanation" = false)
    (hiq : dhas raw "input_question_ids" = false) :
    process_multi_answer qs idx (.dict raw) =
      .ok { id := aid, question := qtext,
            expectedAnswer := (match questions_by_id_get qs aid with
              | some oq => oq.expectedAnswer
              | Option.none => ""),
            sourcedContent := ans, explanation := ex, answerValidity := 1,
            validityExplanation := "", annotations := [], inputQuestionIds := [] } := by
  have h1 : dhas raw "id" = true := dhas_of_dget_some hid (by intro hh; cases hh)
  have h2 : dhas raw "question" = true := dhas_of_dget_some hq (by intro hh; cases hh)
  have h3 : dhas raw "answer" = true := dhas_of_dget_some ha (by intro hh; cases hh)
  have h4 : dhas raw "justifying_contents_ids" = true :=
    dhas_of_dget_some hj (by intro hh; cases hh)
  have h5 : dhas raw "answer_explanation" = true := dhas_of_dget_some hx (by intro hh; cases hh)
  have hmiss : multiRequiredFields.filter (fun f => !(dhas raw f)) = [] := by
    simp [multiRequiredFields, h1, h2, h3, h4, h5]
  have hcv : dget raw "citation_annotation_ids" (.list []) = .list [] :=
    dget_of_dhas_false _ hc
  have heav : dget raw "expected_answer" (.str "") = .str "" := dget_of_dhas_false _ hea
  have hanv : dget raw "annotations" (.list []) = .list [] := dget_of_dhas_false _ han
  have havv : dget raw "answer_validity" (.num 1) = .num 1 := dget_of_dhas_false _ hav
  have hvev : dget raw "validity_explanation" (.str "") = .str "" := dget_of_dhas_false _ hve
  have hiqv : dget raw "input_question_ids" .none = .none := dget_of_dhas_false _ hiq
  cases hqb : questions_by_id_get qs aid with
  | none =>
    simp [process_multi_answer, bind, Except.bind, pure, Except.pure, hmiss, hid, hq, ha,
      hj, hx, hcv, heav, hanv, havv, hvev, hiqv, asStr, asRatNum, pyStrListOrEmpty,
      truthy, mapME, build_annotations, hqb, show ("".isEmpty) = true from rfl]
  | some oq =>
    simp [process_multi_answer, bind, Except.bind, pure, Except.pure, hmiss, hid, hq, ha,
      hj, hx, hcv, heav, hanv, havv, hvev, hiqv, asStr, asRatNum, pyStrListOrEmpty,
      truthy, mapME, build_annotations, hqb, show ("".isEmpty) = true from rfl]

/-- C2: an answer whose `justifying_contents_ids` list is non-empty
while `citation_annotation_ids` resolves to the empty list (missing,
`None`, or empty) makes resolution fail — no answer list is produced —
in both the single-question shape and (for any offending element) the
multi-question shape; conversely an answer with an empty
`justifying_contents_ids` and no `citation_annotation_ids` key at all is
produced successfully. -/
theorem c2_citation_linkage :
    (∀ (outs : Dict) (qs : List Question) (fr : Dict) (xs : List Val),
      dget outs "final_result" .none = .dict fr →
      dget fr "justifying_contents_ids" .none = .list xs →
      xs.isEmpty = false →
      pyStrListOrEmpty (dget fr "citation_annotation_ids" (.list []))
        "TypeError: citation ids must be strings" = .ok [] →
      isOkB (handle_single_question outs qs) = false) ∧
    (∀ (outs : Dict) (qs : List Question) (raws : List Val) (i : Nat) (raw : Dict)
      (xs : List Val),
      dget outs "answers" .none = .list raws →
      raws[i]? = some (.dict raw) →
      dget raw "justifying_contents_ids" .none = .list xs →
      xs.isEmpty = false →
      pyStrListOrEmpty (dget raw "citation_annotation_ids" (.list []))
        "TypeError: citation ids must be strings" = .ok [] →
      isOkB (handle_multi_question outs qs) = false) ∧
    (∀ (outs : Dict) (fr : Dict) (q : Question) (qs' : List Question) (ans ex : String),
      dget outs "final_result" .none = .dict fr →
      truthy (.dict fr) = true →
      dget fr "answer" .none = .str ans →
      dget fr "justifying_contents_ids" .none = .list [] →
      dget fr "answer_explanation" .none = .str ex →
      dhas fr "citation_annotation_ids" = false →
      dhas fr "annotations" = false →
      dhas fr "answer_validity" = false →
      dhas fr "validity_explanation" = false →
      handle_single_question outs (q :: qs') =
        .ok [{ id := q.id, question := q.question, expectedAnswer := q.expectedAnswer,
               sourcedContent := ans, explanation := ex, answerValidity := 1,
               validityExplanation := "", annotations := [],
               inputQuestionIds := q.inputQuestionIds }]) ∧
    (∀ (qs : List Question) (idx : Nat) (raw : Dict) (aid qtext ans ex : String),
      dget raw "id" .none = .str aid →
      dget raw "question" .none = .str qtext →
      dget raw "answer" .none = .str ans →
      dget raw "justifying_contents_ids" .none = .list [] →
      dget raw "answer_explanation" .none = .str ex →
      dhas raw "citation_annotation_ids" = false →
      dhas raw "expected_answer" = false →
      dhas raw "annotations" = false →
      dhas raw "answer_validity" = false →
      dhas raw "validity_explanation" = false →
      dhas raw "input_question_ids" = false →
      process_multi_answer qs idx (.dict raw) =
        .ok { id := aid, question := qtext,
              expectedAnswer := (match questions_by_id_get qs aid with
                | some oq => oq.expectedAnswer
                | Option.none => ""),
              sourcedContent := ans, explanation := ex, answerValidity := 1,
              validityExplanation := "", annotations := [], inputQuestionIds := [] }) := by
  refine ⟨?_, ?_, ?_, ?_⟩
  · intro outs qs fr xs hfr hj hne hcit
    exact handle_single_citation_fail outs qs fr xs hfr hj hne hcit
  · intro outs qs raws i raw xs h1 h2 hj hne hcit
    cases h : handle_multi_question outs qs with
    | error e => rfl
    | ok l =>
      exfalso
      rw [handle_multi_question, h1] at h
      simp only [bind, Except.bind] at h
      cases hpa : process_multi_answers qs 0 raws with
      | error e => rw [hpa] at h; cases h
      | ok l0 =>
        obtain ⟨qa, hqa⟩ := process_multi_answers_ok_all qs raws 0 l0 hpa i (.dict raw) h2
        have hfail := process_multi_citation_fail qs (0 + i) raw xs hj hne hcit
        rw [hqa] at hfail
        cases hfail
  · intro outs fr q qs' ans ex hfr hnefr ha hj hx hc han hav hve
    exact handle_single_success_shape outs fr q qs' ans ex hfr hnefr ha hj hx hc han hav hve
  · intro qs idx raw aid qtext ans ex hid hq ha hj hx hc hea han hav hve hiq
    exact process_multi_success_shape qs idx raw aid qtext ans ex hid hq ha hj hx hc hea
      han hav hve hiq

/-- A concrete single-question output claiming a citation without any
resolved `citation_annotation_ids`. -/
def c2BadOuts : Dict :=
  [("final_result", .dict [("answer", .str "A"), ("justifying_contents_ids", .list [.str "x"]),
    ("answer_explanation", .str "E")])]

/-- A concrete citation-free single-question output. -/
def c2GoodOuts : Dict :=
  [("final_result", .dict [("answer", .str "A"), ("justifying_contents_ids", .list []),
    ("answer_explanation", .str "E")])]

/-- C2 witness: at concrete inputs, the claiming-but-unresolved output
is rejected and the citation-free output is resolved into an answer. -/
theorem c2_witness :
    isOkB (handle_single_question c2BadOuts [{ id := "q1", question := "Q?" }]) = false ∧
    handle_single_question c2GoodOuts [{ id := "q1", question := "Q?" }] =
      .ok [{ id := "q1", question := "Q?", expectedAnswer := "", sourcedContent := "A",
             explanation := "E", answerValidity := 1, validityExplanation := "",
             annotations := [], inputQuestionIds := [] }] := by
  constructor
  · exact c2_citation_linkage.1 c2BadOuts [{ id := "q1", question := "Q?" }]
      [("answer", .str "A"), ("justifying_contents_ids", .list [.str "x"]),
       ("answer_explanation", .str "E")] [.str "x"] rfl rfl rfl rfl
  · exact c2_citation_linkage.2.2.1 c2GoodOuts
      [("answer", .str "A"), ("justifying_contents_ids", .list []),
       ("answer_explanation", .str "E")]
      { id := "q1", question := "Q?" } [] "A" "E" rfl rfl rfl rfl rfl rfl rfl rfl rfl

/-! ## Claim C1 — provenance of `expectedAnswer` -/

theorem asStr_ok {v : Val} {ctx s : String} (h : asStr v ctx = .ok s) : v = .str s := by
  cases v <;> simp_all [asStr]

/-- The `expectedAnswer` field of every answer produced by the
single-question handler comes from the head of `original_questions`. -/
theorem handle_single_ok_expected (outs : Dict) (qs : List Question)
    (l : List QuestionAnswer) (h : handle_single_question outs qs = .ok l) :
    ∃ q qs', qs = q :: qs' ∧ l.map QuestionAnswer.expectedAnswer = [q.expectedAnswer] := by
  simp only [handle_single_question, bind, Except.bind] at h
  cases hfr : dget outs "final_result" Val.none with
  | dict fr =>
    rw [hfr] at h
    simp only [pure, Except.pure] at h
    by_cases ht : truthy (.dict fr) = true
    · rw [if_pos ht] at h
      by_cases hm : (!(singleRequiredFields.filter (fun f => !(dhas fr f))).isEmpty) = true
      · rw [if_pos hm] at h; cases h
      · rw [if_neg hm] at h
        cases h1 : asStr (dget fr "answer" .none) "final_result.answer must be a string" with
        | error e => rw [h1] at h; cases h
        | ok ans =>
          rw [h1] at h
          simp only [pure, Except.pure] at h
          cases hj : dget fr "justifying_contents_ids" Val.none with
          | list xs =>
            rw [hj] at h
            simp only [pure, Except.pure] at h
            cases h2 : asStr (dget fr "answer_explanation" .none)
                "final_result.answer_explanation must be a string" with
            | error e => rw [h2] at h; cases h
            | ok ex =>
              rw [h2] at h
              simp only [pure, Except.pure] at h
              cases qs with
              | nil => cases h
              | cons q qs' =>
                cases h3 : pyStrListOrEmpty (dget fr "citation_annotation_ids" (.list []))
                    "TypeError: citation ids must be strings" with
                | error e => rw [h3] at h; cases h
                | ok cits =>
                  rw [h3] at h
                  simp only [pure, Except.pure] at h
                  by_cases h4 : (!xs.isEmpty && cits.isEmpty) = true
                  · rw [if_pos h4] at h; cases h
                  · rw [if_neg h4] at h
                    cases h5 : build_annotations (dget fr "annotations" (.list [])) with
                    | error e => rw [h5] at h; cases h
                    | ok anns =>
                      rw [h5] at h
                      simp only [pure, Except.pure] at h
                      cases h6 : asRatNum (dget fr "answer_validity" (.num 1))
                          "TypeError: answer_validity must be a number" with
                      | error e => rw [h6] at h; cases h
                      | ok av =>
                        rw [h6] at h
                        simp only [pure, Except.pure] at h
                        cases h7 : asStr (dget fr "validity_explanation" (.str ""))
                            "TypeError: validity_explanation must be a string" with
                        | error e => rw [h7] at h; cases h
                        | ok ve =>
                          rw [h7] at h
                          simp only [pure, Except.pure] at h
                          simp only [pure, Except.pure, Except.ok.injEq] at h
                          subst h
                          exact ⟨q, qs', rfl, by simp⟩
          | none => rw [hj] at h; cases h
          | bool b => rw [hj] at h; cases h
          | num n => rw [hj] at h; cases h
          | str s => rw [hj] at h; cases h
          | dict d => rw [hj] at h; cases h
    · rw [if_neg ht] at h; cases h
  | none => rw [hfr] at h; cases h
  | bool b => rw [hfr] at h; cases h
  | num n => rw [hfr] at h; cases h
  | str s => rw [hfr] at h; cases h
  | list xs => rw [hfr] at h; cases h

/-- The `expectedAnswer` of a multi-question element: the flow's
`expected_answer` value when truthy, else the id-matched original
question's, else the (string) flow value itself. -/
theorem process_multi_ok_expected (qs : List Question) (idx : Nat) (raw : Dict)
    (qa : QuestionAnswer) (h : process_multi_answer qs idx (.dict raw) = .ok qa) :
    dget raw "id" .none = .str qa.id ∧
    (let e0 := dget raw "expected_answer" (.str "")
     (if !(truthy e0) then
        (match questions_by_id_get qs qa.id with
         | some oq => Val.str oq.expectedAnswer
         | Option.none => e0)
      else e0) = .str qa.expectedAnswer) := by
  simp only [process_multi_answer, bind, Except.bind] at h
  by_cases hm : (!(multiRequiredFields.filter (fun f => !(dhas raw f))).isEmpty) = true
  · rw [if_pos hm] at h; cases h
  · rw [if_neg hm] at h
    cases h1 : asStr (dget raw "id" .none) (fieldTypeMsg idx "id" "string") with
    | error e => rw [h1] at h; cases h
    | ok aid =>
      rw [h1] at h
      simp only [pure, Except.pure] at h
      cases h2 : asStr (dget raw "question" .none) (fieldTypeMsg idx "question" "string") with
      | error e => rw [h2] at h; cases h
      | ok qtext =>
        rw [h2] at h
        simp only [pure, Except.pure] at h
        cases h3 : asStr (dget raw "answer" .none) (fieldTypeMsg idx "answer" "string") with
        | error e => rw [h3] at h; cases h
        | ok ans =>
          rw [h3] at h
          simp only [pure, Except.pure] at h
          cases hj : dget raw "justifying_contents_ids" Val.none with
          | list xs =>
            rw [hj] at h
            simp only [pure, Except.pure] at h
            cases h4 : asStr (dget raw "answer_explanation" .none)
                (fieldTypeMsg idx "answer_explanation" "string") with
            | error e => rw [h4] at h; cases h
            | ok ex =>
              rw [h4] at h
              simp only [pure, Except.pure] at h
              cases h5 : pyStrListOrEmpty (dget raw "citation_annotation_ids" (.list []))
                  "TypeError: citation ids must be strings" with
              | error e => rw [h5] at h; cases h
              | ok cits =>
                rw [h5] at h
                simp only [pure, Except.pure] at h
                by_cases h6 : (!xs.isEmpty && cits.isEmpty) = true
                · rw [if_pos h6] at h; cases h
                · rw [if_neg h6] at h
                  cases h7 : asStr
                      (if !(truthy (dget raw "expected_answer" (.str ""))) then
                        (match questions_by_id_get qs aid with
                         | some oq => Val.str oq.expectedAnswer
                         | Option.none => dget raw "expected_answer" (.str ""))
                      else dget raw "expected_answer" (.str ""))
                      "TypeError: expectedAnswer must be a string" with
                  | error e => rw [h7] at h; cases h
                  | ok expv =>
                    rw [h7] at h
                    simp only [pure, Except.pure] at h
                    cases h8 : build_annotations (dget raw "annotations" (.list [])) with
                    | error e => rw [h8] at h; cases h
                    | ok anns =>
                      rw [h8] at h
                      simp only [pure, Except.pure] at h
                      cases h9 : asRatNum (dget raw "answer_validity" (.num 1))
                          "TypeError: float() argument" with
                      | error e => rw [h9] at h; cases h
                      | ok av =>
                        rw [h9] at h
                        simp only [pure, Except.pure] at h
                        cases h10 : asStr (dget raw "validity_explanation" (.str ""))
                            "TypeError: validity_explanation must be a string" with
                        | error e => rw [h10] at h; cases h
                        | ok ve =>
                          rw [h10] at h
                          simp only [pure, Except.pure] at h
                          cases h11 : pyStrListOrEmpty (dget raw "input_question_ids" .none)
                              "TypeError: input_question_ids entries must be strings" with
                          | error e => rw [h11] at h; cases h
                          | ok iqs =>
                            rw [h11] at h
                            simp only [pure, Except.pure] at h
                            simp only [pure, Except.pure, Except.ok.injEq] at h
                            subst h
                            refine ⟨asStr_ok h1, ?_⟩
                            simpa using asStr_ok h7
          | none => rw [hj] at h; cases h
          | bool b => rw [hj] at h; cases h
          | num n => rw [hj] at h; cases h
          | str s => rw [hj] at h; cases h
          | dict d => rw [hj] at h; cases h

/-- The expectedAnswer strings of a resolution result, `Option.none` on
failure. -/
def expectedAnswersOf (r : Except String (List QuestionAnswer)) : Option (List String) :=
  match r with
  | .ok l => some (l.map QuestionAnswer.expectedAnswer)
  | .error _ => Option.none

/-- The caller-supplied question list of the C1 scenario, with expected
answer `original-truth`. -/
def c1Questions : List Question :=
  [{ id := "q1", question := "Q?", expectedAnswer := "original-truth" }]

/-- A multi-question answer element whose flow output carries its own
`expected_answer` value `from-flow`. -/
def c1Raw : Dict :=
  [("id", .str "q1"), ("question", .str "Q?"), ("answer", .str "A"),
   ("justifying_contents_ids", .list []), ("answer_explanation", .str "E"),
   ("expected_answer", .str "from-flow")]

/-- The multi-question flow output wrapping `c1Raw`. -/
def c1Outputs : Dict :=
  [("answers", .list [.dict c1Raw])]

/-- C1 counterexample: in the multi-question shape the resolved
`expectedAnswer` is `from-flow` — the value supplied by the flow's own
output mapping — although the matching original question carries
`original-truth`; so `expectedAnswer` is not always taken from the
original question input. -/
theorem c1_counterexample :
    expectedAnswersOf (to_question_answers c1Outputs c1Questions) = some ["from-flow"] ∧
    c1Questions.map Question.expectedAnswer = ["original-truth"] ∧
    (("from-flow" : String) == "original-truth") = false :=
  ⟨rfl, rfl, by decide⟩

/-- C1 (amended): in the single-question shape `expectedAnswer` always
equals the expected answer of `original_questions[0]`; in the
multi-question shape it is taken from the flow output's
`expected_answer` field whenever that value is truthy, and only
otherwise from the question of `original_questions` whose id matches the
answer's id. -/
theorem c1_expected_answer_provenance :
    (∀ (outs : Dict) (qs : List Question) (l : List QuestionAnswer),
      handle_single_question outs qs = .ok l →
      l.map QuestionAnswer.expectedAnswer = (qs.take 1).map Question.expectedAnswer) ∧
    (∀ (qs : List Question) (idx : Nat) (raw : Dict) (qa : QuestionAnswer),
      process_multi_answer qs idx (.dict raw) = .ok qa →
      truthy (dget raw "expected_answer" (.str "")) = true →
      dget raw "expected_answer" (.str "") = .str qa.expectedAnswer) ∧
    (∀ (qs : List Question) (idx : Nat) (raw : Dict) (qa : QuestionAnswer) (oq : Question),
      process_multi_answer qs idx (.dict raw) = .ok qa →
      truthy (dget raw "expected_answer" (.str "")) = false →
      questions_by_id_get qs qa.id = some oq →
      qa.expectedAnswer = oq.expectedAnswer) := by
  refine ⟨?_, ?_, ?_⟩
  · intro outs qs l h
    obtain ⟨q, qs', rfl, hmap⟩ := handle_single_ok_expected outs qs l h
    simpa using hmap
  · intro qs idx raw qa h ht
    have h2 := (process_multi_ok_expected qs idx raw qa h).2
    simp only [ht, Bool.not_true, Bool.false_eq_true, if_false] at h2
    exact h2
  · intro qs idx raw qa oq h ht hq
    have h2 := (process_multi_ok_expected qs idx raw qa h).2
    simp only [ht, Bool.not_false, if_true, hq, Val.str.injEq] at h2
    exact h2.symm

/-- The single-question flow output of the C1 witness scenario. -/
def c1SingleOuts : Dict :=
  [("final_result", .dict [("answer", .str "A2"), ("justifying_contents_ids", .list []),
    ("answer_explanation", .str "E2")])]

/-- The answer the multi-question handler produces from `c1Raw`. -/
def c1Qa : QuestionAnswer :=
  { id := "q1", question := "Q?", expectedAnswer := "from-flow", sourcedContent := "A",
    explanation := "E", answerValidity := 1, validityExplanation := "", annotations := [],
    inputQuestionIds := [] }

/-- The answer the single-question handler produces from
`c1SingleOuts`. -/
def c1SQa : QuestionAnswer :=
  { id := "q1", question := "Q?", expectedAnswer := "original-truth",
    sourcedContent := "A2", explanation := "E2", answerValidity := 1,
    validityExplanation := "", annotations := [], inputQuestionIds := [] }

/-- C1 witness: the amended provenance applied at concrete inputs — the
multi-question answer takes the truthy flow-supplied value, the
single-question answer takes the original question's value. -/
theorem c1_witness :
    (process_multi_answer c1Questions 0 (.dict c1Raw) = .ok c1Qa ∧
      truthy (dget c1Raw "expected_answer" (.str "")) = true ∧
      dget c1Raw "expected_answer" (.str "") = .str c1Qa.expectedAnswer) ∧
    (handle_single_question c1SingleOuts c1Questions = .ok [c1SQa] ∧
      [c1SQa].map QuestionAnswer.expectedAnswer =
        (c1Questions.take 1).map Question.expectedAnswer) := by
  have hm := c1_expected_answer_provenance.2.1 c1Questions 0 c1Raw c1Qa rfl rfl
  have hs := c1_expected_answer_provenance.1 c1SingleOuts c1Questions [c1SQa] rfl
  exact ⟨⟨rfl, rfl, hm⟩, ⟨rfl, hs⟩⟩

/-! ## Claim C4 — answer ordering in the multi-question shape -/

/-- The question strings of a resolution result, `Option.none` on
failure. -/
def questionsOfResult (r : Except String (List QuestionAnswer)) : Option (List String) :=
  match r with
  | .ok l => some (l.map QuestionAnswer.question)
  | .error _ => Option.none

theorem get_question_index_lb (q : String) (qs : List Question) :
    -1 ≤ get_question_index q qs := by
  rw [get_question_index]
  cases (qs.findIdx? (fun x => x.question == q)) with
  | none => exact le_refl _
  | some i => exact le_trans (by omega) (Int.ofNat_nonneg i)

theorem sorted_sentinel_first (kf : α → Int) (l : List α)
    (hlb : ∀ a ∈ l, -1 ≤ kf a)
    (hs : l.Pairwise (fun a b => (decide (kf a ≤ kf b)) = true)) :
    l = l.filter (fun a => kf a == -1) ++ l.filter (fun a => !(kf a == -1)) := by
  induction l with
  | nil => rfl
  | cons x xs ih =>
    rcases List.pairwise_cons.mp hs with ⟨hx, hxs⟩
    have hlbx : -1 ≤ kf x := hlb x (List.mem_cons_self x xs)
    have hlbxs : ∀ a ∈ xs, -1 ≤ kf a := fun a ha => hlb a (List.mem_cons_of_mem x ha)
    by_cases hk : (kf x == -1) = true
    · simp only [List.filter_cons, hk, Bool.not_true, Bool.false_eq_true, if_false,
        if_true, List.cons_append]
      rw [← ih hlbxs hxs]
    · have hk2 : kf x ≠ -1 := by simpa using hk
      have hk' : (kf x == -1) = false := by simpa using hk
      have hgt : ∀ y ∈ xs, (kf y == -1) = false := by
        intro y hy
        have h1 : kf x ≤ kf y := by simpa using hx y hy
        exact beq_false_of_ne (by omega)
      have hfe : xs.filter (fun a => kf a == -1) = [] := by
        rw [List.filter_eq_nil_iff]
        intro a ha
        simp [hgt a ha]
      have hfs : xs.filter (fun a => !(kf a == -1)) = xs := by
        rw [List.filter_eq_self]
        intro a ha
        simp [hgt a ha]
      simp only [List.filter_cons, hk', Bool.not_false, Bool.false_eq_true, if_false,
        if_true, hfe, hfs, List.nil_append]

/-- A minimal valid multi-question answer element. -/
def c4El (i q a : String) : Dict :=
  [("id", .str i), ("question", .str q), ("answer", .str a),
   ("justifying_contents_ids", .list []), ("answer_explanation", .str "E")]

/-- One question of the C4 scenarios. -/
def c4Q (i q : String) : Question :=
  { id := i, question := q }

/-- Questions `[q1]` for the sentinel-position counterexample. -/
def c4Questions : List Question := [c4Q "1" "Q1?"]

/-- A multi-question output arriving as `[matched, unmatched]`. -/
def c4OutsSentinel : Dict :=
  [("answers", .list [.dict (c4El "a1" "Q1?" "A1"), .dict (c4El "a2" "ZZ?" "A2")])]

/-- C4 counterexample: the answer whose question text has no match in
`original_questions` is placed FIRST, not last — its sort key is the
sentinel `-1`, which sorts before every matched index. The flow arrival
order `[Q1?, ZZ?]` resolves to `[ZZ?, Q1?]`, contradicting the claimed
"placed last" sentinel position. -/
theorem c4_counterexample :
    questionsOfResult (to_question_answers c4OutsSentinel c4Questions) =
      some ["ZZ?", "Q1?"] ∧
    get_question_index "ZZ?" c4Questions = -1 ∧
    get_question_index "Q1?" c4Questions = 0 :=
  ⟨rfl, rfl, rfl⟩

/-- Questions `[q1, q2, q3]` of the ordering-preservation example. -/
def c4ExQuestions : List Question := [c4Q "1" "Q1?", c4Q "2" "Q2?", c4Q "3" "Q3?"]

/-- A multi-question output whose answers arrive in order
`[q3, q1, q2]`. -/
def c4ExOuts : Dict :=
  [("answers", .list [.dict (c4El "3" "Q3?" "A3"), .dict (c4El "1" "Q1?" "A1"),
    .dict (c4El "2" "Q2?" "A2")])]

/-- The answer produced from `c4El i q a` against `c4ExQuestions`. -/
def c4Qa (i q a : String) : QuestionAnswer :=
  { id := i, question := q, expectedAnswer := "", sourcedContent := a,
    explanation := "E", answerValidity := 1, validityExplanation := "",
    annotations := [], inputQuestionIds := [] }

/-- The pre-sort answers of the example, in flow arrival order. -/
def c4ExArrived : List QuestionAnswer :=
  [c4Qa "3" "Q3?" "A3", c4Qa "1" "Q1?" "A1", c4Qa "2" "Q2?" "A2"]

/-- The sorted answers of the example, in original question order. -/
def c4ExSorted : List QuestionAnswer :=
  [c4Qa "1" "Q1?" "A1", c4Qa "2" "Q2?" "A2", c4Qa "3" "Q3?" "A3"]

/-- C4 (amended): multi-question answers are reordered by the position
of their question text in `original_questions` (the example
`[q3, q1, q2]` resolves to `[q1, q2, q3]`); the result is the stable
ascending sort of the processed answers by that index, so it is a
permutation of them, sorted by key, with equal-key runs keeping their
original relative order; answers whose question text has no match take
the deterministic sentinel key `-1` and are therefore placed first —
before every matched answer — not last. -/
theorem c4_ordering_sentinel_first :
    (questionsOfResult (to_question_answers c4ExOuts c4ExQuestions) =
      some ["Q1?", "Q2?", "Q3?"]) ∧
    (∀ (outs : Dict) (qs : List Question) (raws : List Val) (l : List QuestionAnswer),
      dget outs "answers" .none = .list raws →
      handle_multi_question outs qs = .ok l →
      ∃ l0, process_multi_answers qs 0 raws = .ok l0 ∧
        l = stableSortBy (multiSortLe qs) l0 ∧
        List.Perm l l0 ∧
        l.Pairwise (fun a b => multiSortLe qs a b = true) ∧
        (∀ k : Int, l.filter (fun a => get_question_index a.question qs == k)
          = l0.filter (fun a => get_question_index a.question qs == k)) ∧
        l = l.filter (fun a => get_question_index a.question qs == -1)
          ++ l.filter (fun a => !(get_question_index a.question qs == -1))) := by
  constructor
  · rfl
  · intro outs qs raws l hdg hok
    rw [handle_multi_question, hdg] at hok
    simp only [bind, Except.bind] at hok
    cases hpa : process_multi_answers qs 0 raws with
    | error e => rw [hpa] at hok; cases hok
    | ok l0 =>
      rw [hpa] at hok
      simp only [pure, Except.pure, Except.ok.injEq] at hok
      subst hok
      refine ⟨l0, rfl, rfl, perm_stableSortBy _ l0, ?_, ?_, ?_⟩
      · exact pairwise_stableSortBy (multiSortLe qs)
          (intKeyTotal (fun (a : QuestionAnswer) => get_question_index a.question qs))
          (intKeyTrans (fun (a : QuestionAnswer) => get_question_index a.question qs)) l0
      · intro k
        exact filter_stableSortBy
          (fun (a : QuestionAnswer) => get_question_index a.question qs) l0 k
      · refine sorted_sentinel_first
          (fun (a : QuestionAnswer) => get_question_index a.question qs) _ ?_ ?_
        · intro a ha
          exact get_question_index_lb a.question qs
        · exact pairwise_stableSortBy (multiSortLe qs)
            (intKeyTotal (fun (a : QuestionAnswer) => get_question_index a.question qs))
            (intKeyTrans (fun (a : QuestionAnswer) => get_question_index a.question qs)) l0

/-- C4 witness: the general decomposition applied at the concrete
example — the resolved list is the stable sort of the arrival-order
answers and equals `[q1, q2, q3]` order. -/
theorem c4_witness :
    handle_multi_question c4ExOuts c4ExQuestions = .ok c4ExSorted ∧
    c4ExSorted = stableSortBy (multiSortLe c4ExQuestions) c4ExArrived ∧
    List.Perm c4ExSorted c4ExArrived := by
  obtain ⟨l0, h1, h2, h3, -, -, -⟩ :=
    c4_ordering_sentinel_first.2 c4ExOuts c4ExQuestions
      [.dict (c4El "3" "Q3?" "A3"), .dict (c4El "1" "Q1?" "A1"), .dict (c4El "2" "Q2?" "A2")]
      c4ExSorted rfl rfl
  have hl0 : l0 = c4ExArrived := by
    have : Except.ok (ε := String) l0 = .ok c4ExArrived := by rw [← h1]; rfl
    injection this
  subst hl0
  exact ⟨rfl, h2, h3⟩

/-! ## Claim C6 — document-id variant matching

Monotonicity, no-duplicate preservation and hit lemmas for the
document/chunk scan of `_enrich_with_annotations`. -/

theorem scanVariants_sub (ch : Chunk) (fid fname : String) :
    ∀ (vs : List String) (st : ScanState),
      (scanVariants ch fid fname vs st).remaining ⊆ st.remaining := by
  intro vs
  induction vs with
  | nil => intro st; exact fun a ha => ha
  | cons v vs ih =>
    intro st
    simp only [scanVariants]
    by_cases hm : st.remaining.contains (content_id v ch.id) = true
    · rw [if_pos hm]
      by_cases he : (List.isEmpty (st.remaining.erase (content_id v ch.id))) = true
      · rw [if_pos he]
        exact fun a ha => List.erase_subset _ _ ha
      · rw [if_neg he]
        exact fun a ha => List.erase_subset _ _ (ih _ ha)
    · rw [if_neg hm]
      exact ih st

theorem scanChunks_sub (variants : List String) (fid fname : String) :
    ∀ (chs : List Chunk) (st : ScanState),
      (scanChunks variants fid fname chs st).remaining ⊆ st.remaining := by
  intro chs
  induction chs with
  | nil => intro st; exact fun a ha => ha
  | cons c cs ih =>
    intro st
    simp only [scanChunks]
    by_cases hid : (c.id != "") = true
    · rw [if_pos hid]
      by_cases he : (scanVariants c fid fname variants st).remaining.isEmpty = true
      · rw [if_pos he]
        exact scanVariants_sub c fid fname variants st
      · rw [if_neg he]
        exact fun a ha => scanVariants_sub c fid fname variants st (ih _ ha)
    · rw [if_neg hid]
      exact ih st

theorem scanFiles_sub (fetch : String → List Chunk) :
    ∀ (files : List SourceFile) (st : ScanState),
      (scanFiles fetch files st).1.remaining ⊆ st.remaining := by
  intro files
  induction files with
  | nil => intro st; exact fun a ha => ha
  | cons f fs ih =>
    intro st
    simp only [scanFiles]
    by_cases hskip : (f.id == "" || f.checksum == "") = true
    · rw [if_pos hskip]
      exact ih st
    · rw [if_neg hskip]
      by_cases he : (scanChunks (doc_id_variants f.id) f.id f.name (fetch f.checksum)
          st).remaining.isEmpty = true
      · rw [if_pos he]
        exact scanChunks_sub _ f.id f.name _ st
      · rw [if_neg he]
        intro a ha
        exact scanChunks_sub _ f.id f.name _ st (ih _ ha)

theorem scanVariants_nodup (ch : Chunk) (fid fname : String) :
    ∀ (vs : List String) (st : ScanState), st.remaining.Nodup →
      (scanVariants ch fid fname vs st).remaining.Nodup := by
  intro vs
  induction vs with
  | nil => intro st h; exact h
  | cons v vs ih =>
    intro st h
    simp only [scanVariants]
    by_cases hm : st.remaining.contains (content_id v ch.id) = true
    · rw [if_pos hm]
      by_cases he : (List.isEmpty (st.remaining.erase (content_id v ch.id))) = true
      · rw [if_pos he]
        exact h.erase _
      · rw [if_neg he]
        exact ih _ (h.erase _)
    · rw [if_neg hm]
      exact ih st h

theorem scanChunks_nodup (variants : List String) (fid fname : String) :
    ∀ (chs : List Chunk) (st : ScanState), st.remaining.Nodup →
      (scanChunks variants fid fname chs st).remaining.Nodup := by
  intro chs
  induction chs with
  | nil => intro st h; exact h
  | cons c cs ih =>
    intro st h
    simp only [scanChunks]
    by_cases hid : (c.id != "") = true
    · rw [if_pos hid]
      by_cases he : (scanVariants c fid fname variants st).remaining.isEmpty = true
      · rw [if_pos he]
        exact scanVariants_nodup c fid fname variants st h
      · rw [if_neg he]
        exact ih _ (scanVariants_nodup c fid fname variants st h)
    · rw [if_neg hid]
      exact ih st h

theorem scanVariants_hit (ch : Chunk) (fid fname : String) :
    ∀ (vs : List String) (st : ScanState) (v : String),
      st.remaining.Nodup →
      v ∈ vs →
      content_id v ch.id ∈ st.remaining →
      content_id v ch.id ∉ (scanVariants ch fid fname vs st).remaining := by
  intro vs
  induction vs with
  | nil => intro st v hn hv hm; simp at hv
  | cons v0 vs ih =>
    intro st v hn hv hm
    simp only [scanVariants]
    by_cases h0 : st.remaining.contains (content_id v0 ch.id) = true
    · rw [if_pos h0]
      by_cases hcol : content_id v ch.id = content_id v0 ch.id
      · have hni : content_id v ch.id ∉ st.remaining.erase (content_id v0 ch.id) := by
          rw [hcol]
          intro hmem
          exact ((List.Nodup.mem_erase_iff hn).mp hmem).1 rfl
        by_cases he : (List.isEmpty (st.remaining.erase (content_id v0 ch.id))) = true
        · rw [if_pos he]
          exact hni
        · rw [if_neg he]
          intro hx
          exact hni (scanVariants_sub ch fid fname vs _ hx)
      · rcases List.mem_cons.mp hv with rfl | hv'
        · exact absurd rfl hcol
        · have hcm : content_id v ch.id ∈ st.remaining.erase (content_id v0 ch.id) :=
            (List.Nodup.mem_erase_iff hn).mpr ⟨hcol, hm⟩
          by_cases he : (List.isEmpty (st.remaining.erase (content_id v0 ch.id))) = true
          · exfalso
            rw [List.isEmpty_iff] at he
            rw [he] at hcm
            simp at hcm
          · rw [if_neg he]
            exact ih _ v (hn.erase _) hv' hcm
    · rw [if_neg h0]
      rcases List.mem_cons.mp hv with rfl | hv'
      · exact absurd (by simpa using hm) h0
      · exact ih st v hn hv' hm

theorem scanChunks_hit (variants : List String) (fid fname : String) :
    ∀ (chs : List Chunk) (st : ScanState) (ch : Chunk) (v : String),
      st.remaining.Nodup →
      ch ∈ chs →
      (ch.id != "") = true →
      v ∈ variants →
      content_id v ch.id ∈ st.remaining →
      content_id v ch.id ∉ (scanChunks variants fid fname chs st).remaining := by
  intro chs
  induction chs with
  | nil => intro st ch v hn hch hchid hv hm; simp at hch
  | cons c cs ih =>
    intro st ch v hn hch hchid hv hm
    simp only [scanChunks]
    by_cases hcid : (c.id != "") = true
    · rw [if_pos hcid]
      by_cases hmem' : content_id v ch.id ∈ (scanVariants c fid fname variants st).remaining
      · rcases List.mem_cons.mp hch with rfl | hch'
        · exact absurd hmem' (scanVariants_hit ch fid fname variants st v hn hv hm)
        · by_cases he : (scanVariants c fid fname variants st).remaining.isEmpty = true
          · exfalso
            rw [List.isEmpty_iff] at he
            rw [he] at hmem'
            simp at hmem'
          · rw [if_neg he]
            exact ih _ ch v (scanVariants_nodup c fid fname variants st hn) hch' hchid hv hmem'
      · by_cases he : (scanVariants c fid fname variants st).remaining.isEmpty = true
        · rw [if_pos he]
          exact hmem'
        · rw [if_neg he]
          intro hx
          exact hmem' (scanChunks_sub variants fid fname cs _ hx)
    · rw [if_neg hcid]
      rcases List.mem_cons.mp hch with rfl | hch'
      · exact absurd hchid hcid
      · exact ih st ch v hn hch' hchid hv hm

theorem scanFiles_hit (fetch : String → List Chunk) :
    ∀ (files : List SourceFile) (st : ScanState) (f : SourceFile) (ch : Chunk) (v : String),
      st.remaining.Nodup →
      f ∈ files →
      (f.id != "") = true →
      (f.checksum != "") = true →
      ch ∈ fetch f.checksum →
      (ch.id != "") = true →
      v ∈ doc_id_variants f.id →
      content_id v ch.id ∈ st.remaining →
      content_id v ch.id ∉ (scanFiles fetch files st).1.remaining := by
  intro files
  induction files with
  | nil => intro st f ch v hn hf hfid hfck hch hchid hv hm; simp at hf
  | cons f0 fs ih =>
    intro st f ch v hn hf hfid hfck hch hchid hv hm
    simp only [scanFiles]
    by_cases hskip : (f0.id == "" || f0.checksum == "") = true
    · rw [if_pos hskip]
      rcases List.mem_cons.mp hf with rfl | hf'
      · exfalso
        rcases Bool.or_eq_true_iff.mp hskip with h | h
        · simp only [beq_iff_eq] at h
          simp only [bne_iff_ne, ne_eq] at hfid
          exact hfid h
        · simp only [beq_iff_eq] at h
          simp only [bne_iff_ne, ne_eq] at hfck
          exact hfck h
      · exact ih st f ch v hn hf' hfid hfck hch hchid hv hm
    · rw [if_neg hskip]
      by_cases hmem' : content_id v ch.id ∈
          (scanChunks (doc_id_variants f0.id) f0.id f0.name (fetch f0.checksum) st).remaining
      · rcases List.mem_cons.mp hf with rfl | hf'
        · exact absurd hmem'
            (scanChunks_hit (doc_id_variants f.id) f.id f.name (fetch f.checksum) st
              ch v hn hch hchid hv hm)
        · by_cases he : (scanChunks (doc_id_variants f0.id) f0.id f0.name (fetch f0.checksum)
              st).remaining.isEmpty = true
          · exfalso
            rw [List.isEmpty_iff] at he
            rw [he] at hmem'
            simp at hmem'
          · rw [if_neg he]
            exact ih _ f ch v
              (scanChunks_nodup (doc_id_variants f0.id) f0.id f0.name (fetch f0.checksum) st hn)
              hf' hfid hfck hch hchid hv hmem'
      · by_cases he : (scanChunks (doc_id_variants f0.id) f0.id f0.name (fetch f0.checksum)
            st).remaining.isEmpty = true
        · rw [if_pos he]
          exact hmem'
        · rw [if_neg he]
          intro hx
          exact hmem' (scanFiles_sub fetch fs _ hx)

theorem mem_doc_id_variants_self (u : String) (hne : (u != "") = true) :
    u ∈ doc_id_variants u := by
  rw [doc_id_variants]
  simp only [hne, if_true]
  repeat' split
  all_goals simp_all

theorem entity_mem_doc_id_variants (u : String) (hu : looksLikeBareUuid u = true) :
    entityStringOf u ∈ doc_id_variants u := by
  rw [doc_id_variants]
  simp only [hu, if_true]
  repeat' split
  all_goals simp_all
  all_goals tauto

theorem extracted_mem_doc_id_variants (raw : String) (h1 : strHasSub raw uuidMark = true)
    (h2 : (extractEmbeddedUuid raw != "") = true) :
    extractEmbeddedUuid raw ∈ doc_id_variants raw := by
  have hraw : raw ≠ "" := by
    intro hr
    subst hr
    exact absurd h1 (by decide)
  have hne : (raw != "") = true := by simpa using hraw
  rw [doc_id_variants]
  simp only [hne, h1, if_true]
  repeat' split
  all_goals simp_all

/-- The bare uuid of the C6 scenarios. -/
def c6U : String := "11111111-2222-3333-4444-555555555555"

/-- A chunk service returning one chunk `ch1` for every checksum. -/
def c6Fetch : String → List Chunk := fun _ => [{ id := "ch1", content := "text1" }]

/-- An output citing the content id derived under the entity-descriptor
encoding of `c6U`. -/
def c6OutsEntityDerived : Dict :=
  [("final_result", .dict [("answer", .str "X"),
    ("justifying_contents_ids", .list [.str (content_id (entityStringOf c6U) "ch1")]),
    ("answer_explanation", .str "E")])]

/-- An output citing the content id derived under the bare encoding of
`c6U`. -/
def c6OutsBareDerived : Dict :=
  [("final_result", .dict [("answer", .str "X"),
    ("justifying_contents_ids", .list [.str (content_id c6U "ch1")]),
    ("answer_explanation", .str "E")])]

/-- A source document whose raw id is the bare uuid. -/
def c6FileBare : SourceFile := { id := c6U, checksum := "c1", name := "doc.pdf" }

/-- A source document whose raw id is the entity-descriptor string. -/
def c6FileEntity : SourceFile := { id := entityStringOf c6U, checksum := "c1", name := "doc.pdf" }

/-- C6: a bare-uuid document id also yields its entity-descriptor
encoding among the tested variants, and an id containing `UUID('` also
yields the extracted bare uuid; the scan tests every variant against
every referenced content id, so a content id derived under any variant
of a scanned document's id is resolved (leaves the remaining set); in
particular both concrete cross-encoding scenarios enrich successfully. -/
theorem c6_variant_matching :
    (∀ u, looksLikeBareUuid u = true →
      u ∈ doc_id_variants u ∧ entityStringOf u ∈ doc_id_variants u) ∧
    (∀ raw, strHasSub raw uuidMark = true → (extractEmbeddedUuid raw != "") = true →
      extractEmbeddedUuid raw ∈ doc_id_variants raw) ∧
    (∀ (fetch : String → List Chunk) (files : List SourceFile) (st : ScanState)
      (f : SourceFile) (ch : Chunk) (v : String),
      st.remaining.Nodup → f ∈ files → (f.id != "") = true → (f.checksum != "") = true →
      ch ∈ fetch f.checksum → (ch.id != "") = true → v ∈ doc_id_variants f.id →
      content_id v ch.id ∈ st.remaining →
      ((scanFiles fetch files st).1.remaining.contains (content_id v ch.id)) = false) ∧
    (isOkB (enrich_with_annotations c6Fetch c6OutsEntityDerived [c6FileBare]).1 = true ∧
      isOkB (enrich_with_annotations c6Fetch c6OutsBareDerived [c6FileEntity]).1 = true) := by
  refine ⟨?_, ?_, ?_, by rfl, by rfl⟩
  · intro u hu
    have hlen : u.length = 36 := by
      have h := hu
      rw [looksLikeBareUuid] at h
      exact beq_iff_eq.mp (Bool.and_eq_true_iff.mp h).1
    have hne : (u != "") = true := by
      rw [bne_iff_ne]
      intro hr
      rw [hr] at hlen
      exact absurd hlen (by decide)
    exact ⟨mem_doc_id_variants_self u hne, entity_mem_doc_id_variants u hu⟩
  · intro raw h1 h2
    exact extracted_mem_doc_id_variants raw h1 h2
  · intro fetch files st f ch v hn hf hfid hfck hch hchid hv hm
    have hout := scanFiles_hit fetch files st f ch v hn hf hfid hfck hch hchid hv hm
    cases hc : ((scanFiles fetch files st).1.remaining.contains (content_id v ch.id)) with
    | false => rfl
    | true => exact absurd (by simpa using hc) hout

/-- C6 witness: the variant facts and the scan resolution applied at the
concrete cross-encoding scenario (bare-uuid document resolving an
entity-derived content id). -/
theorem c6_witness :
    (looksLikeBareUuid c6U = true ∧ entityStringOf c6U ∈ doc_id_variants c6U) ∧
    ((scanFiles c6Fetch [c6FileBare]
        ⟨[], [content_id (entityStringOf c6U) "ch1"]⟩).1.remaining.contains
      (content_id (entityStringOf c6U) "ch1")) = false ∧
    isOkB (enrich_with_annotations c6Fetch c6OutsEntityDerived [c6FileBare]).1 = true := by
  refine ⟨⟨by decide, (c6_variant_matching.1 c6U (by decide)).2⟩, ?_,
    c6_variant_matching.2.2.2.1⟩
  refine c6_variant_matching.2.2.1 c6Fetch [c6FileBare]
    ⟨[], [content_id (entityStringOf c6U) "ch1"]⟩ c6FileBare
    { id := "ch1", content := "text1" } (entityStringOf c6U)
    (by simp) (List.mem_singleton.mpr rfl) rfl rfl
    (List.mem_singleton.mpr rfl) rfl ?_ (List.mem_singleton.mpr rfl)
  exact entity_mem_doc_id_variants c6U (by decide)

/-! ## Claim C3 — hard failure on unresolved content ids, no silent
drops -/

theorem dget_any_default {d : Dict} {k : String} {v : Val}
    (h : dget d k .none = v) (hne : v ≠ .none) (dflt : Val) : dget d k dflt = v := by
  cases hopt : dgetOpt d k with
  | none =>
    rw [dget, hopt] at h
    exact absurd h.symm hne
  | some w =>
    rw [dget, hopt] at h ⊢
    exact h

theorem build_annotations_payload_cits (found : List (String × Chunk × String × String)) :
    ∀ (ids : List String) (p : List Val × List String),
      build_annotations_payload found ids = .ok p → p.2 = ids := by
  intro ids
  induction ids with
  | nil =>
    intro p h
    simp only [build_annotations_payload] at h
    cases h
    rfl
  | cons cid rest ih =>
    intro p h
    simp only [build_annotations_payload] at h
    cases hf : found.find? (fun e => e.1 == cid) with
    | none => rw [hf] at h; cases h
    | some entry =>
      obtain ⟨c, ch, fid, fname⟩ := entry
      rw [hf] at h
      simp only [bind, Except.bind] at h
      cases hrec : build_annotations_payload found rest with
      | error e => rw [hrec] at h; cases h
      | ok q =>
        rw [hrec] at h
        obtain ⟨anns, cits⟩ := q
        simp only [Except.ok.injEq] at h
        subst h
        exact congrArg (List.cons cid) (ih (anns, cits) hrec)

theorem mapME_str_ok {ctx : String} :
    ∀ (xs : List Val) (ids : List String),
      mapME (fun x => match x with
        | Val.str s => Except.ok s
        | _ => Except.error ctx) xs = .ok ids →
      xs = ids.map Val.str := by
  intro xs
  induction xs with
  | nil =>
    intro ids h
    simp only [mapME] at h
    cases h
    rfl
  | cons x rest ih =>
    intro ids h
    simp only [mapME, bind, Except.bind] at h
    cases x with
    | str s =>
      cases hrec : mapME (fun x => match x with
          | Val.str s => Except.ok s
          | _ => Except.error ctx) rest with
      | error e => rw [hrec] at h; cases h
      | ok ids' =>
        rw [hrec] at h
        simp only [pure, Except.pure, Except.ok.injEq] at h
        subst h
        simp [ih ids' hrec]
    | none => cases h
    | bool b => cases h
    | num q => cases h
    | list l => cases h
    | dict d => cases h

theorem pyStrListOrEmpty_ok {v : Val} {ctx : String} {ids : List String}
    (h : pyStrListOrEmpty v ctx = .ok ids) :
    (truthy v = false ∧ ids = []) ∨ v = .list (ids.map Val.str) := by
  rw [pyStrListOrEmpty] at h
  by_cases ht : truthy v = true
  · rw [if_pos ht] at h
    cases v with
    | list xs => exact Or.inr (by rw [mapME_str_ok xs ids h])
    | none => cases h
    | bool b => cases h
    | num q => cases h
    | str s => cases h
    | dict d => cases h
  · rw [if_neg ht] at h
    simp only [mapME] at h
    cases h
    exact Or.inl ⟨by simpa using ht, rfl⟩

theorem enrichAnswerDict_spec (found : List (String × Chunk × String × String))
    (ad ad' : Dict) (h : enrichAnswerDict found ad = .ok ad') :
    ∃ ids, pyStrListOrEmpty (dget ad "justifying_contents_ids" (.list []))
        "TypeError: justifying_contents_ids must be a list of strings" = .ok ids ∧
      dget ad' "justifying_contents_ids" .none = dget ad "justifying_contents_ids" .none ∧
      dget ad' "citation_annotation_ids" .none = .list (ids.map Val.str) := by
  rw [enrichAnswerDict] at h
  simp only [bind, Except.bind] at h
  cases hids : pyStrListOrEmpty (dget ad "justifying_contents_ids" (.list []))
      "TypeError: justifying_contents_ids must be a list of strings" with
  | error e => rw [hids] at h; cases h
  | ok ids =>
    rw [hids] at h
    simp only [] at h
    cases hbap : build_annotations_payload found ids with
    | error e => rw [hbap] at h; cases h
    | ok p =>
      rw [hbap] at h
      simp only [] at h
      obtain ⟨anns, cits⟩ := p
      simp only [pure, Except.pure, Except.ok.injEq] at h
      subst h
      have hcits : cits = ids := build_annotations_payload_cits found ids (anns, cits) hbap
      subst hcits
      refine ⟨cits, rfl, ?_, ?_⟩
      · rw [dget_dset_ne _ _ _ _ _ (by decide), dget_dset_ne _ _ _ _ _ (by decide)]
      · rw [dget_dset_self]

theorem dhas_dset_self (d : Dict) (k : String) (v : Val) : dhas (dset d k v) k = true := by
  simp [dhas, dgetOpt_dset_self]

/-- If enrichment succeeds and the result's `final_result` claims a
non-empty `justifying_contents_ids`, then its
`citation_annotation_ids` equals that very list. -/
theorem c3_single_citations (fetch : String → List Chunk) (outs : Dict)
    (files : List SourceFile) (d fr : Dict) (xs : List Val)
    (hok : (enrich_with_annotations fetch outs files).1 = .ok d)
    (hfr : dget d "final_result" .none = .dict fr)
    (hj : dget fr "justifying_contents_ids" .none = .list xs)
    (hne : xs.isEmpty = false) :
    dget fr "citation_annotation_ids" .none = .list xs := by
  rw [enrich_with_annotations] at hok
  cases hcol : collect_content_ids outs with
  | error e => rw [hcol] at hok; cases hok
  | ok ids =>
    rw [hcol] at hok
    simp only [] at hok
    by_cases hids : ids.isEmpty = true
    · rw [if_pos hids] at hok
      simp only [Except.ok.injEq] at hok
      subst hok
      exfalso
      have hh : dhas outs "final_result" = true := dhas_of_dget_dict hfr
      rw [collect_content_ids, if_pos hh] at hcol
      have hfrd : dget outs "final_result" (.dict []) = .dict fr :=
        dget_any_default hfr (by intro hh2; cases hh2) _
      rw [hfrd] at hcol
      simp only [] at hcol
      have hjd : dget fr "justifying_contents_ids" (.list []) = .list xs :=
        dget_any_default hj (by intro hh2; cases hh2) _
      rw [hjd] at hcol
      rcases pyStrListOrEmpty_ok hcol with ⟨ht, hidsnil⟩ | hveq
      · exact absurd ht (by simp [truthy, hne])
      · rw [List.isEmpty_iff] at hids
        subst hids
        simp only [List.map_nil, Val.list.injEq] at hveq
        rw [hveq] at hne
        simp at hne
    · rw [if_neg hids] at hok
      by_cases hm : (sortStrings (scanFiles fetch files
          ⟨[], dedupKeepFirst [] ids⟩).1.remaining).isEmpty = true
      · rw [if_neg (by simp [hm])] at hok
        simp only [bind, Except.bind] at hok
        by_cases hfo : dhas outs "final_result" = true
        · rw [if_pos hfo] at hok
          cases hfrv : dget outs "final_result" (.dict []) with
          | dict fr0 =>
            rw [hfrv] at hok
            simp only [] at hok
            cases hEn : enrichAnswerDict
                (scanFiles fetch files ⟨[], dedupKeepFirst [] ids⟩).1.found fr0 with
            | error e => rw [hEn] at hok; cases hok
            | ok fr' =>
              rw [hEn] at hok
              simp only [pure, Except.pure] at hok
              -- phase 2 on d1 := dset outs "final_result" (.dict fr')
              have hfr'eq : fr = fr' := by
                by_cases ha : dhas (dset outs "final_result" (.dict fr')) "answers" = true
                · rw [if_pos ha] at hok
                  cases havv : (if truthy (dget (dset outs "final_result" (.dict fr'))
                      "answers" (.list []))
                      then dget (dset outs "final_result" (.dict fr')) "answers" (.list [])
                      else .list []) with
                  | list ys0 =>
                    rw [havv] at hok
                    simp only [] at hok
                    split at hok
                    · cases hok
                    · simp only [Except.ok.injEq] at hok
                      subst hok
                      rw [dget_dset_ne _ _ _ _ _ (by decide), dget_dset_self] at hfr
                      exact (Val.dict.injEq _ _).mp hfr.symm
                  | none => rw [havv] at hok; cases hok
                  | bool b => rw [havv] at hok; cases hok
                  | num q => rw [havv] at hok; cases hok
                  | str s => rw [havv] at hok; cases hok
                  | dict dd => rw [havv] at hok; cases hok
                · rw [if_neg ha] at hok
                  simp only [pure, Except.pure, Except.ok.injEq] at hok
                  subst hok
                  rw [dget_dset_self] at hfr
                  exact (Val.dict.injEq _ _).mp hfr.symm
              subst hfr'eq
              obtain ⟨ids2, hids2, hjeq, hcit⟩ := enrichAnswerDict_spec _ fr0 fr hEn
              have hj0 : dget fr0 "justifying_contents_ids" .none = .list xs := by
                rw [← hjeq]; exact hj
              have hj0d : dget fr0 "justifying_contents_ids" (.list []) = .list xs :=
                dget_any_default hj0 (by intro hh2; cases hh2) _
              rw [hj0d] at hids2
              rcases pyStrListOrEmpty_ok hids2 with ⟨ht, -⟩ | hveq
              · exact absurd ht (by simp [truthy, hne])
              · simp only [Val.list.injEq] at hveq
                rw [hcit, ← hveq]
          | none => rw [hfrv] at hok; cases hok
          | bool b => rw [hfrv] at hok; cases hok
          | num q => rw [hfrv] at hok; cases hok
          | str s => rw [hfrv] at hok; cases hok
          | list l => rw [hfrv] at hok; cases hok
        · exfalso
          rw [if_neg hfo] at hok
          have hfo' : dhas outs "final_result" = false := by simpa using hfo
          have hnone : dget outs "final_result" Val.none = Val.none :=
            dget_of_dhas_false _ hfo'
          simp only [pure, Except.pure] at hok
          -- phase 2 on d1 := outs
          by_cases ha : dhas outs "answers" = true
          · rw [if_pos ha] at hok
            cases havv : (if truthy (dget outs "answers" (.list []))
                then dget outs "answers" (.list []) else .list []) with
            | list ys0 =>
              rw [havv] at hok
              simp only [] at hok
              split at hok
              · cases hok
              · simp only [Except.ok.injEq] at hok
                subst hok
                rw [dget_dset_ne _ _ _ _ _ (by decide), hnone] at hfr
                cases hfr
            | none => rw [havv] at hok; cases hok
            | bool b => rw [havv] at hok; cases hok
            | num q => rw [havv] at hok; cases hok
            | str s => rw [havv] at hok; cases hok
            | dict dd => rw [havv] at hok; cases hok
          · rw [if_neg ha] at hok
            simp only [Except.ok.injEq] at hok
            subst hok
            rw [hnone] at hfr
            cases hfr
      · rw [if_pos (by simp [hm])] at hok
        cases hok

/-- If enrichment succeeds, the result is in the multi-question shape,
and one of its answers claims a non-empty `justifying_contents_ids`,
then that answer's `citation_annotation_ids` equals that very list. -/
theorem c3_multi_citations (fetch : String → List Chunk) (outs : Dict)
    (files : List SourceFile) (d : Dict) (ys : List Val) (i : Nat) (ad : Dict)
    (xs : List Val)
    (hok : (enrich_with_annotations fetch outs files).1 = .ok d)
    (hnf : dhas d "final_result" = false)
    (hys : dget d "answers" .none = .list ys)
    (hel : ys[i]? = some (.dict ad))
    (hj : dget ad "justifying_contents_ids" .none = .list xs)
    (hne : xs.isEmpty = false) :
    dget ad "citation_annotation_ids" .none = .list xs := by
  have hine : i < ys.length := by
    by_contra hge
    rw [List.getElem?_eq_none (by omega)] at hel
    cases hel
  rw [enrich_with_annotations] at hok
  cases hcol : collect_content_ids outs with
  | error e => rw [hcol] at hok; cases hok
  | ok ids =>
    rw [hcol] at hok
    simp only [] at hok
    by_cases hids : ids.isEmpty = true
    · rw [if_pos hids] at hok
      simp only [Except.ok.injEq] at hok
      subst hok
      exfalso
      rw [collect_content_ids] at hcol
      rw [if_neg (by rw [hnf]; exact Bool.false_ne_true)] at hcol
      have hha : dhas outs "answers" = true :=
        dhas_of_dget_some hys (by intro hh2; cases hh2)
      rw [if_pos hha] at hcol
      have hysd : dget outs "answers" (.list []) = .list ys :=
        dget_any_default hys (by intro hh2; cases hh2) _
      rw [hysd] at hcol
      have hysne : ys ≠ [] := by
        intro h0
        rw [h0] at hel
        simp at hel
      have htr : truthy (Val.list ys) = true := by
        simp [truthy, List.isEmpty_iff, hysne]
      rw [if_pos htr] at hcol
      simp only [bind, Except.bind] at hcol
      cases hmm : mapME (fun a =>
          match a with
          | Val.dict ad2 =>
            pyStrListOrEmpty (dget ad2 "justifying_contents_ids" (.list []))
              "TypeError: justifying_contents_ids must be a list of strings"
          | _ => .error "AttributeError: answer is not a dict") ys with
      | error e => rw [hmm] at hcol; cases hcol
      | ok idss =>
        rw [hmm] at hcol
        simp only [pure, Except.pure, Except.ok.injEq] at hcol
        rw [List.isEmpty_iff] at hids
        subst hids
        obtain ⟨hlen, hpt⟩ := mapME_ok_pointwise hmm
        have hi0 : i < idss.length := by omega
        have hidsel : idss[i]? = some idss[i] := List.getElem?_eq_getElem hi0
        have hfi := hpt i (.dict ad) idss[i] hel hidsel
        have hmem : idss[i] ∈ idss := List.getElem_mem hi0
        have hempty : idss[i] = [] := by
          have hflat := hcol
          rw [List.flatten_eq_nil_iff] at hflat
          exact hflat _ hmem
        rw [hempty] at hfi
        simp only [] at hfi
        have hjd : dget ad "justifying_contents_ids" (.list []) = .list xs :=
          dget_any_default hj (by intro hh2; cases hh2) _
        rw [hjd] at hfi
        rcases pyStrListOrEmpty_ok hfi with ⟨ht, -⟩ | hveq
        · exact absurd ht (by simp [truthy, hne])
        · simp only [List.map_nil, Val.list.injEq] at hveq
          rw [hveq] at hne
          simp at hne
    · rw [if_neg hids] at hok
      by_cases hm : (sortStrings (scanFiles fetch files
          ⟨[], dedupKeepFirst [] ids⟩).1.remaining).isEmpty = true
      · rw [if_neg (by simp [hm])] at hok
        simp only [bind, Except.bind] at hok
        by_cases hfo : dhas outs "final_result" = true
        · exfalso
          rw [if_pos hfo] at hok
          cases hfrv : dget outs "final_result" (.dict []) with
          | dict fr0 =>
            rw [hfrv] at hok
            simp only [] at hok
            cases hEn : enrichAnswerDict
                (scanFiles fetch files ⟨[], dedupKeepFirst [] ids⟩).1.found fr0 with
            | error e => rw [hEn] at hok; cases hok
            | ok fr' =>
              rw [hEn] at hok
              simp only [pure, Except.pure] at hok
              by_cases ha : dhas (dset outs "final_result" (.dict fr')) "answers" = true
              · rw [if_pos ha] at hok
                cases havv : (if truthy (dget (dset outs "final_result" (.dict fr'))
                    "answers" (.list []))
                    then dget (dset outs "final_result" (.dict fr')) "answers" (.list [])
                    else .list []) with
                | list ys0 =>
                  rw [havv] at hok
                  simp only [] at hok
                  split at hok
                  · cases hok
                  · simp only [Except.ok.injEq] at hok
                    subst hok
                    rw [dhas_dset_ne _ _ _ _ (by decide), dhas_dset_self] at hnf
                    cases hnf
                | none => rw [havv] at hok; cases hok
                | bool b => rw [havv] at hok; cases hok
                | num q => rw [havv] at hok; cases hok
                | str s => rw [havv] at hok; cases hok
                | dict dd => rw [havv] at hok; cases hok
              · rw [if_neg ha] at hok
                simp only [Except.ok.injEq] at hok
                subst hok
                rw [dhas_dset_self] at hnf
                cases hnf
          | none => rw [hfrv] at hok; cases hok
          | bool b => rw [hfrv] at hok; cases hok
          | num q => rw [hfrv] at hok; cases hok
          | str s => rw [hfrv] at hok; cases hok
          | list l => rw [hfrv] at hok; cases hok
        · rw [if_neg hfo] at hok
          simp only [pure, Except.pure] at hok
          by_cases ha : dhas outs "answers" = true
          · rw [if_pos ha] at hok
            cases havv : (if truthy (dget outs "answers" (.list []))
                then dget outs "answers" (.list []) else .list []) with
            | list ys0 =>
              rw [havv] at hok
              simp only [] at hok
              split at hok
              · cases hok
              · rename_i ys' hmap
                simp only [Except.ok.injEq] at hok
                subst hok
                rw [dget_dset_self] at hys
                have hys' : ys' = ys := (Val.list.injEq _ _).mp hys
                subst hys'
                obtain ⟨hlen, hpt⟩ := mapME_ok_pointwise hmap
                have hi0 : i < ys0.length := by omega
                have h0el : ys0[i]? = some ys0[i] := List.getElem?_eq_getElem hi0
                have hfi := hpt i ys0[i] (.dict ad) h0el hel
                cases hget : ys0[i] with
                | dict ad0 =>
                  rw [hget] at hfi
                  simp only [] at hfi
                  cases hE2 : enrichAnswerDict
                      (scanFiles fetch files ⟨[], dedupKeepFirst [] ids⟩).1.found ad0 with
                  | error e => rw [hE2] at hfi; cases hfi
                  | ok ad' =>
                    rw [hE2] at hfi
                    simp only [Except.ok.injEq, Val.dict.injEq] at hfi
                    subst hfi
                    obtain ⟨ids2, hids2, hjeq, hcit⟩ := enrichAnswerDict_spec _ ad0 ad' hE2
                    have hj0 : dget ad0 "justifying_contents_ids" .none = .list xs := by
                      rw [← hjeq]; exact hj
                    have hj0d : dget ad0 "justifying_contents_ids" (.list []) = .list xs :=
                      dget_any_default hj0 (by intro hh2; cases hh2) _
                    rw [hj0d] at hids2
                    rcases pyStrListOrEmpty_ok hids2 with ⟨ht, -⟩ | hveq
                    · exact absurd ht (by simp [truthy, hne])
                    · simp only [Val.list.injEq] at hveq
                      rw [hcit, ← hveq]
                | none => rw [hget] at hfi; cases hfi
                | bool b => rw [hget] at hfi; cases hfi
                | num q => rw [hget] at hfi; cases hfi
                | str s => rw [hget] at hfi; cases hfi
                | list l => rw [hget] at hfi; cases hfi
            | none => rw [havv] at hok; cases hok
            | bool b => rw [havv] at hok; cases hok
            | num q => rw [havv] at hok; cases hok
            | str s => rw [havv] at hok; cases hok
            | dict dd => rw [havv] at hok; cases hok
          · exfalso
            rw [if_neg ha] at hok
            simp only [Except.ok.injEq] at hok
            subst hok
            have ha' : dhas outs "answers" = false := by simpa using ha
            rw [dget_of_dhas_false _ ha'] at hys
            cases hys
      · rw [if_pos (by simp [hm])] at hok
        cases hok

/-- The hard-failure path: some referenced id left unresolved by the
scan makes enrichment return exactly the unresolved-ids error. -/
theorem c3_unresolved_error (fetch : String → List Chunk) (outs : Dict)
    (files : List SourceFile) (ids : List String) (stp : ScanState × List String)
    (hcol : collect_content_ids outs = .ok ids)
    (hne : ids.isEmpty = false)
    (hscan : scanFiles fetch files ⟨[], dedupKeepFirst [] ids⟩ = stp)
    (hrem : stp.1.remaining.isEmpty = false) :
    (enrich_with_annotations fetch outs files).1 =
      .error (unresolvedMsg (sortStrings stp.1.remaining)
        (dedupKeepFirst [] ids).length) := by
  have hms : (sortStrings stp.1.remaining).isEmpty = false := by
    have hlen := (perm_stableSortBy strLeB stp.1.remaining).length_eq
    rw [sortStrings]
    cases hsort : stableSortBy strLeB stp.1.remaining with
    | nil =>
      exfalso
      rw [hsort] at hlen
      have hnil : stp.1.remaining = [] := List.length_eq_zero.mp hlen.symm
      rw [hnil] at hrem
      simp at hrem
    | cons a l => rfl
  rw [enrich_with_annotations, hcol]
  simp only []
  rw [if_neg (by rw [hne]; exact Bool.false_ne_true), hscan]
  rw [if_pos (by rw [hms]; rfl)]

/-- A single-question output citing an id no document can resolve. -/
def c3BadOuts : Dict :=
  [("final_result", .dict [("answer", .str "X"),
    ("justifying_contents_ids", .list [.str "x"]),
    ("answer_explanation", .str "E")])]

/-- A chunk service returning one chunk `ch1` for every checksum. -/
def c3Fetch : String → List Chunk := fun _ => [{ id := "ch1", content := "text1" }]

/-- A single-question output citing the id of chunk `ch1` of document
`d1`. -/
def c3GoodOuts : Dict :=
  [("final_result", .dict [("answer", .str "X"),
    ("justifying_contents_ids", .list [.str (content_id "d1" "ch1")]),
    ("answer_explanation", .str "E")])]

/-- The source document owning the cited chunk. -/
def c3GoodFile : SourceFile := { id := "d1", checksum := "c1", name := "doc.pdf" }

/-- The final-result dict after successful enrichment of
`c3GoodOuts`. -/
def c3EnrichedFr : Dict :=
  [("answer", .str "X"),
   ("justifying_contents_ids", .list [.str (content_id "d1" "ch1")]),
   ("answer_explanation", .str "E"),
   ("annotations", .list [.dict
     [("id", .str (content_id "d1" "ch1")),
      ("documentStatement", .dict
        [("documentId", .str "d1"), ("documentName", .str "doc.pdf"),
         ("content", .str "text1"), ("positions", .list [])])]]),
   ("citation_annotation_ids", .list [.str (content_id "d1" "ch1")])]

/-- The enriched outputs of `c3GoodOuts`. -/
def c3Enriched : Dict := [("final_result", .dict c3EnrichedFr)]

/-- C3: after scanning all supplied documents, any still-unresolved
content id makes enrichment fail with the message naming the unresolved
count out of the distinct total and at most ten sample ids (each sample
id occurring verbatim in the message); and whenever enrichment succeeds,
every answer of the result that claims a non-empty
`justifying_contents_ids` carries a `citation_annotation_ids` equal to
that very list — no claimed citation is dropped or left empty. -/
theorem c3_fail_closed_citations :
    (∀ (fetch : String → List Chunk) (outs : Dict) (files : List SourceFile)
      (ids : List String) (stp : ScanState × List String),
      collect_content_ids outs = .ok ids → ids.isEmpty = false →
      scanFiles fetch files ⟨[], dedupKeepFirst [] ids⟩ = stp →
      stp.1.remaining.isEmpty = false →
      (enrich_with_annotations fetch outs files).1 =
        .error (unresolvedMsg (sortStrings stp.1.remaining)
          (dedupKeepFirst [] ids).length)) ∧
    (∀ (missing : List String) (total : Nat),
      strHasSub (unresolvedMsg missing total)
        (toString missing.length ++ "/" ++ toString total) = true ∧
      (missing.take 10).length ≤ 10 ∧
      ∀ cid ∈ missing.take 10, strHasSub (unresolvedMsg missing total) cid = true) ∧
    (∀ (fetch : String → List Chunk) (outs : Dict) (files : List SourceFile)
      (d fr : Dict) (xs : List Val),
      (enrich_with_annotations fetch outs files).1 = .ok d →
      dget d "final_result" .none = .dict fr →
      dget fr "justifying_contents_ids" .none = .list xs →
      xs.isEmpty = false →
      dget fr "citation_annotation_ids" .none = .list xs) ∧
    (∀ (fetch : String → List Chunk) (outs : Dict) (files : List SourceFile)
      (d : Dict) (ys : List Val) (i : Nat) (ad : Dict) (xs : List Val),
      (enrich_with_annotations fetch outs files).1 = .ok d →
      dhas d "final_result" = false →
      dget d "answers" .none = .list ys →
      ys[i]? = some (.dict ad) →
      dget ad "justifying_contents_ids" .none = .list xs →
      xs.isEmpty = false →
      dget ad "citation_annotation_ids" .none = .list xs) := by
  refine ⟨c3_unresolved_error, ?_, c3_single_citations, c3_multi_citations⟩
  intro missing total
  refine ⟨?_, List.length_take_le 10 missing, ?_⟩
  · exact strHasSub_of_parts _ (toString missing.length ++ "/" ++ toString total)
      "Could not resolve cited content ids from search service. Missing "
      (": " ++ pyReprStrList (missing.take 10))
      (by simp [unresolvedMsg, String.append_assoc])
  · intro cid hc
    exact strHasSub_trans (mem_pyReprStrList_sub _ cid hc) (strHasSub_of_parts2 _ _ _ rfl)

/-- C3 witness: at concrete inputs, citing an unresolvable id `x` fails
with the counting message, while citing a resolvable id succeeds with
`citation_annotation_ids` equal to the claimed list. -/
theorem c3_witness :
    (collect_content_ids c3BadOuts = .ok ["x"] ∧
      (enrich_with_annotations c3Fetch c3BadOuts []).1 = .error (unresolvedMsg ["x"] 1)) ∧
    ((enrich_with_annotations c3Fetch c3GoodOuts [c3GoodFile]).1 = .ok c3Enriched ∧
      dget c3EnrichedFr "citation_annotation_ids" .none =
        .list [.str (content_id "d1" "ch1")]) := by
  refine ⟨⟨rfl, ?_⟩, ⟨rfl, ?_⟩⟩
  · exact c3_fail_closed_citations.1 c3Fetch c3BadOuts [] ["x"] (⟨[], ["x"]⟩, [])
      rfl rfl rfl rfl
  · exact c3_fail_closed_citations.2.2.1 c3Fetch c3GoodOuts [c3GoodFile] c3Enriched
      c3EnrichedFr [.str (content_id "d1" "ch1")] rfl rfl rfl rfl

end ProcessorFlow
